import Mathlib

/-!
Verification of the petr compiler front-end (parser, resolver, type checker)
against its specification. The Rust sources are shallowly embedded: arenas
become lists indexed by `Nat`, machine integers become `Nat`/`Int`, stateful
methods become state-passing functions, and the unbounded recursions of the
constraint solver and the on-demand type checker are made total with an
explicit fuel argument (the source recursions terminate on all states the
compiler actually builds; fuel exhaustion returns the state unchanged and is
unreachable for sufficiently large fuel, which every theorem supplies).
-/

namespace Petr

/-- `miette::SourceSpan`: a byte offset plus a byte length.
From `petr-utils/src/sources.rs` (`Span.span` field). -/
structure SourceSpan where
  offset : Nat
  length : Nat
deriving DecidableEq, Repr

/-- `petr_utils::Span`: a `SourceId` (here a bare `Nat`) plus a `SourceSpan`.
From `petr-utils/src/sources.rs`. -/
structure Span where
  source : Nat
  sspan : SourceSpan
deriving DecidableEq, Repr

/-- `Span::join` from `petr-utils/src/sources.rs`. The Rust function begins
with `assert!(self.source == after_span.source, ...)`; the panic on distinct
sources is modelled by returning `none`. -/
def Span.join (s : Span) (after : Span) : Option Span :=
  if s.source ≠ after.source then none
  else
    let firstSpan := if s.sspan.offset < after.sspan.offset then s.sspan else after.sspan
    let secondSpan := if s.sspan.offset < after.sspan.offset then after.sspan else s.sspan
    let firstEnd := firstSpan.length + firstSpan.offset
    let secondEnd := secondSpan.length + secondSpan.offset
    let e := max firstEnd secondEnd
    let length := e - firstSpan.offset
    some { source := s.source, sspan := { offset := firstSpan.offset, length := length } }

/-- `Span::hi_to_hi` from `petr-utils/src/sources.rs`; the assert is again
modelled as `none`. -/
def Span.hiToHi (s : Span) (after : Span) : Option Span :=
  if s.source ≠ after.source then none
  else
    let lo := s.sspan.offset + s.sspan.length
    let hi := after.sspan.offset + after.sspan.length
    some { source := s.source, sspan := { offset := lo, length := hi - lo } }

/-- `Span::extend` from `petr-utils/src/sources.rs`. -/
def Span.extend (s : Span) (hi : Nat) : Option Span :=
  if hi < s.sspan.offset then none
  else some { source := s.source, sspan := { offset := s.sspan.offset, length := hi - s.sspan.offset } }

/-- `Span::zero_length` from `petr-utils/src/sources.rs`. -/
def Span.zeroLength (s : Span) : Span :=
  { source := s.source, sspan := { offset := s.sspan.offset, length := 0 } }

/-- `petr_utils::SpannedItem<T>`: a payload together with its span. -/
structure SpannedItem (T : Type) where
  item : T
  span : Span
deriving DecidableEq, Repr

/-- Modelled from the spec: `Identifier` is `(SymbolId, Span)`
(`petr-utils`' identifier module is not among the provided sources). Symbol
ids are bare `Nat`s. Identifier ordering and equality used by the binder and
checker scope maps compare only the symbol id, as variable lookup must find a
definition-site identifier from a use-site identifier with a different span;
the checker's own `replace_var_reference_types` likewise compares `.id`. -/
structure Identifier where
  id : Nat
  span : Span
deriving DecidableEq, Repr

/-- `petr_ast::Literal` (re-exported as `petr_resolve::Literal`), from
`petr-ast/src/ast.rs`: `Integer(i64) | Boolean(bool) | String(Rc<str>)`. -/
inductive Literal where
  | integer : Int → Literal
  | boolean : Bool → Literal
  | string : String → Literal
deriving DecidableEq, Repr

/-- `TypeVariant { fields: Box<[TypeVariable]> }` from
`petr-typecheck/src/lib.rs`; a `TypeVariable` is an index (`Nat`) into the
type arena. -/
structure TypeVariant where
  fields : List Nat
deriving DecidableEq, Repr

/-- `PetrType` from `petr-typecheck/src/lib.rs`. `TypeVariable`s are `Nat`
indices into the `TypeContext.types` arena. -/
inductive PetrType where
  | unit
  | integer
  | boolean
  | string
  | ref : Nat → PetrType
  | userDefined : Identifier → List TypeVariant → List Literal → PetrType
  | arrow : List Nat → PetrType
  | errorRecovery
  | list : Nat → PetrType
  | infer : Nat → Span → PetrType
  | sum : List PetrType → PetrType
  | lit : Literal → PetrType

mutual

/-- Structural (`PartialEq`-derived) equality test for `PetrType`; the
nesting of `PetrType` lists inside `Sum` keeps Lean from deriving it. -/
def PetrType.beq : PetrType → PetrType → Bool
  | .unit, .unit => true
  | .integer, .integer => true
  | .boolean, .boolean => true
  | .string, .string => true
  | .ref v, .ref w => decide (v = w)
  | .userDefined n1 vs1 cs1, .userDefined n2 vs2 cs2 =>
    decide (n1 = n2) && decide (vs1 = vs2) && decide (cs1 = cs2)
  | .arrow t1, .arrow t2 => decide (t1 = t2)
  | .errorRecovery, .errorRecovery => true
  | .list v, .list w => decide (v = w)
  | .infer i1 s1, .infer i2 s2 => decide (i1 = i2) && decide (s1 = s2)
  | .sum ts1, .sum ts2 => PetrType.beqList ts1 ts2
  | .lit l1, .lit l2 => decide (l1 = l2)
  | _, _ => false

/-- Pointwise `PetrType.beq` on lists. -/
def PetrType.beqList : List PetrType → List PetrType → Bool
  | [], [] => true
  | a :: as, b :: bs => PetrType.beq a b && PetrType.beqList as bs
  | _, _ => false

end

mutual

def PetrType.beq_refl : ∀ a : PetrType, PetrType.beq a a = true
  | .unit | .integer | .boolean | .string | .errorRecovery => rfl
  | .ref _ => by simp [PetrType.beq]
  | .userDefined _ _ _ => by simp [PetrType.beq]
  | .arrow _ => by simp [PetrType.beq]
  | .list _ => by simp [PetrType.beq]
  | .infer _ _ => by simp [PetrType.beq]
  | .sum ts => by simpa [PetrType.beq] using PetrType.beqList_refl ts
  | .lit _ => by simp [PetrType.beq]

def PetrType.beqList_refl : ∀ as : List PetrType, PetrType.beqList as as = true
  | [] => rfl
  | a :: as => by
    simp only [PetrType.beqList, Bool.and_eq_true]
    exact ⟨PetrType.beq_refl a, PetrType.beqList_refl as⟩

end

mutual

def PetrType.eq_of_beq : ∀ {a b : PetrType}, PetrType.beq a b = true → a = b
  | .unit, .unit, _ | .integer, .integer, _ | .boolean, .boolean, _
  | .string, .string, _ | .errorRecovery, .errorRecovery, _ => rfl
  | .ref v, .ref w, h => by simpa [PetrType.beq] using h
  | .userDefined n1 vs1 cs1, .userDefined n2 vs2 cs2, h => by
    simp only [PetrType.beq, Bool.and_eq_true, decide_eq_true_eq] at h
    simp [h.1.1, h.1.2, h.2]
  | .arrow t1, .arrow t2, h => by simpa [PetrType.beq] using h
  | .list v, .list w, h => by simpa [PetrType.beq] using h
  | .infer i1 s1, .infer i2 s2, h => by
    simp only [PetrType.beq, Bool.and_eq_true, decide_eq_true_eq] at h
    simp [h.1, h.2]
  | .sum ts1, .sum ts2, h => by
    have := @PetrType.eqList_of_beqList ts1 ts2 (by simpa [PetrType.beq] using h)
    simp [this]
  | .lit l1, .lit l2, h => by simpa [PetrType.beq] using h

def PetrType.eqList_of_beqList : ∀ {as bs : List PetrType},
    PetrType.beqList as bs = true → as = bs
  | [], [], _ => rfl
  | a :: as, b :: bs, h => by
    simp only [PetrType.beqList, Bool.and_eq_true] at h
    have h1 := PetrType.eq_of_beq h.1
    have h2 := PetrType.eqList_of_beqList h.2
    simp [h1, h2]

end

instance : DecidableEq PetrType := fun a b =>
  if h : PetrType.beq a b = true then isTrue (PetrType.eq_of_beq h)
  else isFalse fun he => h (he ▸ PetrType.beq_refl a)

/-- Modelled from the spec (§4.8): `TypeConstraintError` lives in
`petr-typecheck/src/error.rs`, which is not among the provided sources; the
variants and payloads are those used by `petr-typecheck/src/lib.rs`:
`UnificationFailure(a, b)` and `FailedToSatisfy(a, b)` carry pretty-printed
renderings of the offending types, `ArgumentCountMismatch` carries
`expected`, `got` and the callee's name, `Internal` carries a message. -/
inductive TypeConstraintError where
  | unificationFailure : String → String → TypeConstraintError
  | failedToSatisfy : String → String → TypeConstraintError
  | argumentCountMismatch : (expected : Nat) → (got : Nat) → (function : String) → TypeConstraintError
  | internal : String → TypeConstraintError
deriving DecidableEq, Repr

/-- `pub type TypeError = SpannedItem<TypeConstraintError>`. -/
def TypeError : Type := SpannedItem TypeConstraintError

/-- `TypeConstraintKind` from `petr-typecheck/src/lib.rs`. -/
inductive TypeConstraintKind where
  | unify : Nat → Nat → TypeConstraintKind
  | satisfies : Nat → Nat → TypeConstraintKind
deriving DecidableEq, Repr

/-- `TypeConstraint` from `petr-typecheck/src/lib.rs`. -/
structure TypeConstraint where
  kind : TypeConstraintKind
  span : Span
deriving DecidableEq, Repr

/-- `TypeContext` from `petr-typecheck/src/lib.rs`. The `IndexMap` arena of
types is a list whose positions are the `TypeVariable` ids. -/
structure TypeContext where
  types : List PetrType
  constraints : List TypeConstraint
  unitTy : Nat
  stringTy : Nat
  intTy : Nat
  boolTy : Nat
  errorRecovery : Nat

/-- Arena lookup (`IndexMap::get`). Out-of-range lookups panic in the Rust
source and are unreachable once an id has been issued; the default returned
here is arbitrary. -/
def TypeContext.getTy (ts : List PetrType) (v : Nat) : PetrType :=
  ts.getD v PetrType.errorRecovery

/-- `TypeContext::default` from `petr-typecheck/src/lib.rs`: inserts the
primitive types in the order unit, string, bool, int, error-recovery, so the
sentinels are arena slots 0, 1, 2, 3, 4. -/
def TypeContext.default : TypeContext :=
  { types := [PetrType.unit, PetrType.string, PetrType.boolean, PetrType.integer, PetrType.errorRecovery]
    constraints := []
    unitTy := 0
    stringTy := 1
    boolTy := 2
    intTy := 3
    errorRecovery := 4 }

/-- `TypeContext::update_type`: rewrite the slot for `t1` in place. -/
def TypeContext.updateType (ctx : TypeContext) (t1 : Nat) (known : PetrType) : TypeContext :=
  { ctx with types := ctx.types.set t1 known }

/-- `PetrType::is_generalized_of` from `petr-typecheck/src/lib.rs`. The
`Ref` arm follows the forwarded slot, which the Rust source does by direct
recursion; `fuel` bounds that ref-chasing (the compiler never builds ref
cycles, so any fuel larger than the longest chain gives the source's
value). -/
def PetrType.isGeneralizedOf (fuel : Nat) (self : PetrType) (sumTys : List PetrType)
    (types : List PetrType) : Bool :=
  match self with
  | .string => sumTys.all fun ty => match ty with | .lit (.string _) => true | _ => false
  | .integer => sumTys.all fun ty => match ty with | .lit (.integer _) => true | _ => false
  | .boolean => sumTys.all fun ty => match ty with | .lit (.boolean _) => true | _ => false
  | .ref v =>
    match fuel with
    | 0 => false
    | fuel + 1 => PetrType.isGeneralizedOf fuel (TypeContext.getTy types v) sumTys types
  | .sum tys => tys.all fun ty => sumTys.contains ty
  | _ => false

/-- The generalization relation as the spec words it (§4.7): primitives
generalize multisets of their own literals, `Ref` forwards, and `Sum(A)`
generalizes `S` iff every member of `S` is in `A`. Stated separately so it
can be compared with the source's `PetrType.isGeneralizedOf`. -/
def specGeneralizes (fuel : Nat) (self : PetrType) (sumTys : List PetrType)
    (types : List PetrType) : Bool :=
  match self with
  | .string => sumTys.all fun ty => match ty with | .lit (.string _) => true | _ => false
  | .integer => sumTys.all fun ty => match ty with | .lit (.integer _) => true | _ => false
  | .boolean => sumTys.all fun ty => match ty with | .lit (.boolean _) => true | _ => false
  | .ref v =>
    match fuel with
    | 0 => false
    | fuel + 1 => specGeneralizes fuel (TypeContext.getTy types v) sumTys types
  | .sum tys => sumTys.all fun ty => tys.contains ty
  | _ => false

/-- `petr_ast::Intrinsic`, re-exported as `petr_resolve::IntrinsicName`; the
variant set is the one matched by `petr-typecheck/src/lib.rs` (the copy of
`petr-ast/src/ast.rs` provided predates the `Equals` intrinsic the type
checker handles). -/
inductive IntrinsicName where
  | puts
  | add
  | subtract
  | multiply
  | divide
  | malloc
  | sizeOf
  | equals
deriving DecidableEq, Repr

/-- Modelled from the spec (§4.4) and the uses in `petr-typecheck`:
`petr_resolve::Type` (its defining module `petr-resolve/src/resolver.rs` is
not among the provided sources). Variants are exactly those matched by
`TypeChecker::to_petr_type`. -/
inductive RType where
  | integer
  | bool
  | unit
  | string
  | errorRecovery : Span → RType
  | named : Nat → RType
  | generic : Identifier → RType
  | sum : List RType → RType
  | lit : Literal → RType

mutual

/-- Modelled from the spec (§4.4) and the uses in `petr-typecheck`:
`petr_resolve::Expr { kind, span }`. -/
inductive RExpr where
  | mk : RExprKind → Span → RExpr

/-- Modelled from the spec (§4.4): `petr_resolve::ExprKind`, with exactly
the variants matched by `Expr::type_check` in `petr-typecheck/src/lib.rs`. -/
inductive RExprKind where
  | literal : Literal → RExprKind
  | list : List RExpr → RExprKind
  | functionCall : RFunctionCall → RExprKind
  | unit : RExprKind
  | errorRecovery : RExprKind
  | var : (name : Identifier) → (ty : RType) → RExprKind
  | intrinsic : RIntrinsic → RExprKind
  | typeConstructor : Nat → List RExpr → RExprKind
  | exprWithBindings : List RBinding → RExpr → RExprKind
  | ifE : (condition : RExpr) → (thenBranch : RExpr) → (elseBranch : RExpr) → RExprKind

/-- `petr_resolve::FunctionCall { function, args, span }` (constructed at
`petr-typecheck/src/lib.rs` line 334 and consumed by its `TypeCheck` impl). -/
inductive RFunctionCall where
  | mk : (function : Nat) → (args : List RExpr) → (span : Span) → RFunctionCall

/-- `petr_resolve::Intrinsic { intrinsic, args }` as consumed by the
`SpannedItem<ResolvedIntrinsic>` `TypeCheck` impl. -/
inductive RIntrinsic where
  | mk : IntrinsicName → List RExpr → RIntrinsic

/-- A resolved let binding `{ name, expression }` as consumed by the
`ExprKind::ExpressionWithBindings` arm of `Expr::type_check`. -/
inductive RBinding where
  | mk : Identifier → RExpr → RBinding

end

def RExpr.kind : RExpr → RExprKind
  | .mk k _ => k

def RExpr.span : RExpr → Span
  | .mk _ sp => sp

def RFunctionCall.function : RFunctionCall → Nat
  | .mk f _ _ => f

def RFunctionCall.args : RFunctionCall → List RExpr
  | .mk _ a _ => a

def RFunctionCall.span : RFunctionCall → Span
  | .mk _ _ sp => sp

def RBinding.name : RBinding → Identifier
  | .mk n _ => n

def RBinding.expression : RBinding → RExpr
  | .mk _ e => e

/-- Modelled from the spec (§4.4): `petr_resolve::Function` with the fields
read by its `TypeCheck` impl (`name`, `params`, `return_type`, `body`). -/
structure RFunction where
  name : Identifier
  params : List (Identifier × RType)
  returnType : RType
  body : RExpr

mutual

/-- `TypedExpr { kind, span }` from `petr-typecheck/src/lib.rs`. -/
inductive TypedExpr where
  | mk : TypedExprKind → Span → TypedExpr

/-- `TypedExprKind` from `petr-typecheck/src/lib.rs`. `Variable` is `var`
here (`variable` is reserved), `If` is `ifE`. -/
inductive TypedExprKind where
  | functionCall : (func : Nat) → (args : List (Identifier × TypedExpr)) → (ty : Nat) → TypedExprKind
  | literal : (value : Literal) → (ty : Nat) → TypedExprKind
  | list : (elements : List TypedExpr) → (ty : Nat) → TypedExprKind
  | unit : TypedExprKind
  | var : (ty : Nat) → (name : Identifier) → TypedExprKind
  | intrinsic : (ty : Nat) → (intrinsic : Intrinsic) → TypedExprKind
  | errorRecovery : Span → TypedExprKind
  | exprWithBindings : (bindings : List (Identifier × TypedExpr)) → (expression : TypedExpr) → TypedExprKind
  | typeConstructor : (ty : Nat) → (args : List TypedExpr) → TypedExprKind
  | ifE : (condition : TypedExpr) → (thenBranch : TypedExpr) → (elseBranch : TypedExpr) → TypedExprKind

/-- `petr_typecheck::Intrinsic` from `petr-typecheck/src/lib.rs`. -/
inductive Intrinsic where
  | puts : TypedExpr → Intrinsic
  | add : TypedExpr → TypedExpr → Intrinsic
  | multiply : TypedExpr → TypedExpr → Intrinsic
  | divide : TypedExpr → TypedExpr → Intrinsic
  | subtract : TypedExpr → TypedExpr → Intrinsic
  | malloc : TypedExpr → Intrinsic
  | sizeOf : TypedExpr → Intrinsic
  | equals : TypedExpr → TypedExpr → Intrinsic

end

def TypedExpr.kind : TypedExpr → TypedExprKind
  | .mk k _ => k

def TypedExpr.span : TypedExpr → Span
  | .mk _ sp => sp

/-- `petr_typecheck::Function` from `petr-typecheck/src/lib.rs`. -/
structure Function where
  name : Identifier
  params : List (Identifier × Nat)
  body : TypedExpr
  returnTy : Nat

/-- Modelled from the spec (§4.4, §6): the parts of
`petr_resolve::QueryableResolvedItems` the type checker reads. The symbol
interner and the resolved-function arena are total maps, reflecting the
spec's arena invariant that lookups never fail once an id is issued. -/
structure QueryableResolvedItems where
  interner : Nat → String
  functions : Nat → RFunction

/-- `TypeOrFunctionId` from `petr-typecheck/src/lib.rs`. -/
inductive TypeOrFunctionId where
  | typeId : Nat → TypeOrFunctionId
  | functionId : Nat → TypeOrFunctionId
deriving DecidableEq, Repr

/-- `BTreeMap` insertion on an association-list model: overwrite the value
at an existing key, append a fresh key at the end. -/
def assocInsert {κ α : Type} [DecidableEq κ] : List (κ × α) → κ → α → List (κ × α)
  | [], k, v => [(k, v)]
  | (k', v') :: rest, k, v =>
    if k' = k then (k, v) :: rest else (k', v') :: assocInsert rest k v

/-- `BTreeMap` lookup on the association-list model. -/
def assocLookup {κ α : Type} [DecidableEq κ] : List (κ × α) → κ → Option α
  | [], _ => none
  | (k', v') :: rest, k => if k' = k then some v' else assocLookup rest k

/-- `TypeChecker` from `petr-typecheck/src/lib.rs`. The `BTreeMap`s are
association lists, the variable-scope stack has its innermost scope at the
head. -/
structure TypeChecker where
  ctx : TypeContext
  typeMap : List (TypeOrFunctionId × Nat)
  monomorphizedFunctions : List ((Nat × List PetrType) × Function)
  typedFunctions : List (Nat × Function)
  errors : List (SpannedItem TypeConstraintError)
  resolved : QueryableResolvedItems
  variableScope : List (List (Nat × Nat))

/-- Rust `Debug` rendering of a `Literal`, as interpolated by
`pretty_print_petr_type`'s `format!("Literal {:?}", l)`. -/
def reprLiteral : Literal → String
  | .integer i => "Integer(" ++ toString i ++ ")"
  | .boolean b => "Boolean(" ++ (if b then "true" else "false") ++ ")"
  | .string str => "String(" ++ "\"" ++ str ++ "\"" ++ ")"

/-- `pretty_printing::pretty_print_petr_type` (with
`pretty_print_ty`'s ref-chasing inlined into the `Ref`, `Arrow` and `List`
arms) from `petr-typecheck/src/lib.rs`. `fuel` bounds the ref-chasing,
which the Rust source performs by unbounded recursion. -/
def prettyPrintPetrType : Nat → PetrType → (Nat → String) → List PetrType → String
  | fuel, ty, interner, types =>
    match ty with
    | .unit => "unit"
    | .integer => "int"
    | .boolean => "bool"
    | .string => "string"
    | .ref v =>
      match fuel with
      | 0 => ""
      | fuel + 1 => prettyPrintPetrType fuel (TypeContext.getTy types v) interner types
    | .userDefined name _ _ => interner name.id
    | .arrow tys =>
      let inner := tys.map fun v =>
        match fuel with
        | 0 => ""
        | fuel + 1 => prettyPrintPetrType fuel (TypeContext.getTy types v) interner types
      "(" ++ String.intercalate " → " inner ++ ")"
    | .errorRecovery => "error recovery"
    | .list v =>
      let inner :=
        match fuel with
        | 0 => ""
        | fuel + 1 => prettyPrintPetrType fuel (TypeContext.getTy types v) interner types
      "[" ++ inner ++ "]"
    | .infer id _ => "infer t" ++ toString id
    | .sum tys =>
      let inner := tys.map fun t =>
        match fuel with
        | 0 => ""
        | fuel + 1 => prettyPrintPetrType fuel t interner types
      "(" ++ String.intercalate " | " inner ++ ")"
    | .lit l => "Literal " ++ reprLiteral l

/-- `TypeChecker::push_error`. -/
def TypeChecker.pushError (s : TypeChecker) (e : SpannedItem TypeConstraintError) : TypeChecker :=
  { s with errors := s.errors ++ [e] }

/-- `TypeChecker::update_type` reaching through to the context. -/
def TypeChecker.updateTy (s : TypeChecker) (t1 : Nat) (known : PetrType) : TypeChecker :=
  { s with ctx := s.ctx.updateType t1 known }

/-- `TypeChecker::unify_err`: an error payload carrying the pretty-printed
types. The fuel handed to the printer is the arena size, enough for any
acyclic ref chain. -/
def TypeChecker.unifyErr (s : TypeChecker) (a b : PetrType) : TypeConstraintError :=
  .unificationFailure (prettyPrintPetrType s.ctx.types.length a s.resolved.interner s.ctx.types)
    (prettyPrintPetrType s.ctx.types.length b s.resolved.interner s.ctx.types)

/-- `TypeChecker::satisfy_err`, as `TypeChecker.unifyErr`. -/
def TypeChecker.satisfyErr (s : TypeChecker) (a b : PetrType) : TypeConstraintError :=
  .failedToSatisfy (prettyPrintPetrType s.ctx.types.length a s.resolved.interner s.ctx.types)
    (prettyPrintPetrType s.ctx.types.length b s.resolved.interner s.ctx.types)

/-- `TypeChecker::apply_unify_constraint` from `petr-typecheck/src/lib.rs`,
arm for arm in source order. The two guarded Rust arms are translated with
their fall-through targets: two `Infer`s with equal ids (and hence, since
the leading equality arm did not fire, distinct spans) fall through to the
`(Infer, known)` arm, and unequal literals take the widening arm. `fuel`
bounds the `Ref`-forwarding recursion, which is unbounded in the source. -/
def TypeChecker.applyUnifyConstraint : Nat → Nat → Nat → Span → TypeChecker → TypeChecker
  | fuel, t1, t2, span, s =>
    let ty1 := TypeContext.getTy s.ctx.types t1
    let ty2 := TypeContext.getTy s.ctx.types t2
    if ty1 = ty2 then s
    else
      match ty1, ty2 with
      | .errorRecovery, _ => s
      | _, .errorRecovery => s
      | .ref a, _ =>
        (match fuel with
         | 0 => s
         | fuel + 1 => TypeChecker.applyUnifyConstraint fuel a t2 span s)
      | _, .ref b =>
        (match fuel with
         | 0 => s
         | fuel + 1 => TypeChecker.applyUnifyConstraint fuel t1 b span s)
      | .infer id _, .infer id2 _ =>
        if id ≠ id2 then s.updateTy t2 (.ref t1)
        else s.updateTy t1 ty2
      | .sum aTys, .sum bTys =>
        ((s.updateTy t1 (.sum (aTys ++ bTys))).updateTy t2 (.ref t1))
      | .sum sumTys, other =>
        ((s.updateTy t1 (.sum (sumTys ++ [other]))).updateTy t2 (.ref t1))
      | .lit l1, .lit l2 =>
        if l1 = l2 then s
        else ((s.updateTy t1 (.sum [.lit l1, .lit l2])).updateTy t2 (.ref t1))
      | .lit l1, .sum tys =>
        ((s.updateTy t1 (.sum (.lit l1 :: tys))).updateTy t2 (.ref t1))
      | ty, .lit l =>
        (match l, ty with
         | .integer _, .integer => s.updateTy t1 (.lit l)
         | .boolean _, .boolean => s.updateTy t1 (.lit l)
         | .string _, .string => s.updateTy t1 (.lit l)
         | _, _ => s.pushError ⟨s.unifyErr ty (.lit l), span⟩)
      | .lit l, ty =>
        (match l, ty with
         | .integer _, .integer => s.updateTy t2 (.lit l)
         | .boolean _, .boolean => s.updateTy t2 (.lit l)
         | .string _, .string => s.updateTy t2 (.lit l)
         | _, _ => s.pushError ⟨s.unifyErr ty (.lit l), span⟩)
      | other, .sum sumTys =>
        let s1 :=
          if sumTys.contains other then s
          else s.pushError ⟨s.unifyErr other (.sum sumTys), span⟩
        s1.updateTy t2 other
      | .infer _ _, known => s.updateTy t1 known
      | known, .infer _ _ => s.updateTy t2 known
      | a, b => s.pushError ⟨s.unifyErr a b, span⟩

/-- `TypeChecker::apply_satisfies_constraint` from
`petr-typecheck/src/lib.rs`, arm for arm in source order. The guarded
equal-literal arm's failure case falls through to the
`(ty, Literal(lit))` arm, whose carrier match fails for a literal `ty` and
emits the error. `fuel` bounds `Ref`-forwarding and the ref-chasing inside
`is_generalized_of`. -/
def TypeChecker.applySatisfiesConstraint : Nat → Nat → Nat → Span → TypeChecker → TypeChecker
  | fuel, t1, t2, span, s =>
    let ty1 := TypeContext.getTy s.ctx.types t1
    let ty2 := TypeContext.getTy s.ctx.types t2
    if ty1 = ty2 then s
    else
      match ty1, ty2 with
      | .errorRecovery, _ => s
      | _, .errorRecovery => s
      | .ref a, _ =>
        (match fuel with
         | 0 => s
         | fuel + 1 => TypeChecker.applySatisfiesConstraint fuel a t2 span s)
      | _, .ref b =>
        (match fuel with
         | 0 => s
         | fuel + 1 => TypeChecker.applySatisfiesConstraint fuel t1 b span s)
      | .infer _ _, .infer _ _ => s
      | _, .infer _ _ => s.updateTy t2 (.ref t1)
      | .infer _ _, _ => s
      | .sum aTys, .sum bTys =>
        s.updateTy t2 (.sum (aTys.filter fun aTy => bTys.contains aTy))
      | .sum sumTys, other | other, .sum sumTys =>
        if other.isGeneralizedOf fuel sumTys s.ctx.types then s
        else if sumTys.contains other then s
        else s.pushError ⟨s.satisfyErr other (.sum sumTys), span⟩
      | .lit l1, .lit l2 =>
        if l1 = l2 then s
        else s.pushError ⟨s.satisfyErr (.lit l1) (.lit l2), span⟩
      | ty, .lit l =>
        (match l, ty with
         | .integer _, .integer => s
         | .boolean _, .boolean => s
         | .string _, .string => s
         | _, _ => s.pushError ⟨s.satisfyErr ty (.lit l), span⟩)
      | a, b => s.pushError ⟨s.satisfyErr a b, span⟩

/-- `TypeChecker::apply_constraints`: snapshot the constraint list and
solve each constraint in insertion order. -/
def TypeChecker.applyConstraints (fuel : Nat) (s : TypeChecker) : TypeChecker :=
  s.ctx.constraints.foldl
    (fun st c =>
      match c.kind with
      | .unify t1 t2 => TypeChecker.applyUnifyConstraint fuel t1 t2 c.span st
      | .satisfies t1 t2 => TypeChecker.applySatisfiesConstraint fuel t1 t2 c.span st)
    s

/-- `TypeChecker::expr_ty` from `petr-typecheck/src/lib.rs`. -/
def TypeChecker.exprTy : TypeChecker → TypedExpr → Nat
  | _, .mk (.functionCall _ _ ty) _ => ty
  | _, .mk (.literal _ ty) _ => ty
  | _, .mk (.list _ ty) _ => ty
  | s, .mk .unit _ => s.ctx.unitTy
  | _, .mk (.var ty _) _ => ty
  | _, .mk (.intrinsic ty _) _ => ty
  | s, .mk (.errorRecovery _) _ => s.ctx.errorRecovery
  | s, .mk (.exprWithBindings _ expression) _ => TypeChecker.exprTy s expression
  | _, .mk (.typeConstructor ty _) _ => ty
  | s, .mk (.ifE _ thenBranch _) _ => TypeChecker.exprTy s thenBranch

/-- `TypeContext::new_variable`: insert a fresh `Infer` slot whose id is the
arena length at creation; `IndexMap::insert` returns the new index. -/
def TypeContext.newVariable (ctx : TypeContext) (span : Span) : Nat × TypeContext :=
  (ctx.types.length, { ctx with types := ctx.types ++ [PetrType.infer ctx.types.length span] })

/-- `TypeChecker::fresh_ty_var`. -/
def TypeChecker.freshTyVar (s : TypeChecker) (span : Span) : Nat × TypeChecker :=
  let r := s.ctx.newVariable span
  (r.1, { s with ctx := r.2 })

/-- `TypeChecker::insert_type`: append to the type arena, returning the new
index. -/
def TypeChecker.insertType (s : TypeChecker) (ty : PetrType) : Nat × TypeChecker :=
  (s.ctx.types.length, { s with ctx := { s.ctx with types := s.ctx.types ++ [ty] } })

/-- `TypeChecker::look_up_variable`. -/
def TypeChecker.lookUpVariable (s : TypeChecker) (v : Nat) : PetrType :=
  TypeContext.getTy s.ctx.types v

/-- `TypeChecker::get_symbol`: interner lookup. -/
def TypeChecker.getSymbol (s : TypeChecker) (id : Nat) : String :=
  s.resolved.interner id

/-- `TypeChecker::unify` (the collection-phase method): push a `Unify`
constraint. -/
def TypeChecker.unify (s : TypeChecker) (ty1 ty2 : Nat) (span : Span) : TypeChecker :=
  { s with ctx := { s.ctx with constraints := s.ctx.constraints ++ [{ kind := .unify ty1 ty2, span := span }] } }

/-- `TypeChecker::satisfies` (the collection-phase method): push a
`Satisfies` constraint. -/
def TypeChecker.satisfies (s : TypeChecker) (ty1 ty2 : Nat) (span : Span) : TypeChecker :=
  { s with ctx := { s.ctx with constraints := s.ctx.constraints ++ [{ kind := .satisfies ty1 ty2, span := span }] } }

/-- `TypeChecker::unify_expr_return`. -/
def TypeChecker.unifyExprReturn (s : TypeChecker) (ty : Nat) (expr : TypedExpr) : TypeChecker :=
  s.unify ty (s.exprTy expr) expr.span

/-- `TypeChecker::satisfy_expr_return`. -/
def TypeChecker.satisfyExprReturn (s : TypeChecker) (ty : Nat) (expr : TypedExpr) : TypeChecker :=
  s.satisfies ty (s.exprTy expr) expr.span

/-- `TypeChecker::find_variable`: scan the scope stack innermost-first,
matching by symbol id. -/
def TypeChecker.findVariable (s : TypeChecker) (id : Identifier) : Option Nat :=
  s.variableScope.findSome? fun scope => assocLookup scope id.id

/-- `TypeChecker::insert_variable` into the innermost scope. The source
panics (`expect`) when no scope exists; that is unreachable in the
checker's use and modelled as a no-op. -/
def TypeChecker.insertVariable (s : TypeChecker) (id : Identifier) (ty : Nat) : TypeChecker :=
  match s.variableScope with
  | [] => s
  | scope :: rest => { s with variableScope := ((id.id, ty) :: scope) :: rest }

/-- `TypeChecker::generic_type`: reuse a scoped generic's variable or mint a
fresh one and record it in the innermost scope; with no open scope, push an
`Internal` error and overwrite the fresh slot with `ErrorRecovery`. -/
def TypeChecker.genericType (s : TypeChecker) (id : Identifier) : Nat × TypeChecker :=
  match s.variableScope.findSome? (fun scope => assocLookup scope id.id) with
  | some ty => (ty, s)
  | none =>
    let r := s.freshTyVar id.span
    match r.2.variableScope with
    | scope :: rest => (r.1, { r.2 with variableScope := ((id.id, r.1) :: scope) :: rest })
    | [] =>
      let s2 := r.2.pushError
        ⟨.internal "attempted to insert generic type into variable scope when no variable scope existed", id.span⟩
      (r.1, s2.updateTy r.1 .errorRecovery)

/-- `TypeChecker::get_type`: type-map lookup; the source panics on a missing
key (unreachable once ids are issued), modelled with an arbitrary default. -/
def TypeChecker.getType (s : TypeChecker) (key : TypeOrFunctionId) : Nat :=
  (assocLookup s.typeMap key).getD s.ctx.errorRecovery

/-- `TypeChecker::convert_literal_to_type`. -/
def TypeChecker.convertLiteralToType (s : TypeChecker) (l : Literal) : Nat × TypeChecker :=
  s.insertType (.lit l)

mutual

/-- `TypeChecker::to_petr_type` from `petr-typecheck/src/lib.rs`. -/
def TypeChecker.toPetrType : RType → TypeChecker → PetrType × TypeChecker
  | .integer, s => (.integer, s)
  | .bool, s => (.boolean, s)
  | .unit, s => (.unit, s)
  | .string, s => (.string, s)
  | .errorRecovery _, s => (.errorRecovery, s)
  | .named tyId, s => (.ref ((assocLookup s.typeMap (.typeId tyId)).getD s.ctx.errorRecovery), s)
  | .generic genericName, s =>
    let r := s.genericType genericName
    (.ref r.1, r.2)
  | .sum tys, s =>
    let r := TypeChecker.toPetrTypeList tys s
    (.sum r.1, r.2)
  | .lit l, s => (.lit l, s)

/-- State-threaded `to_petr_type` over a list (the `Sum` arm's `map`). -/
def TypeChecker.toPetrTypeList : List RType → TypeChecker → List PetrType × TypeChecker
  | [], s => ([], s)
  | t :: ts, s =>
    let r1 := TypeChecker.toPetrType t s
    let r2 := TypeChecker.toPetrTypeList ts r1.2
    (r1.1 :: r2.1, r2.2)

end

/-- `TypeChecker::to_type_var`: convert and insert. -/
def TypeChecker.toTypeVar (ty : RType) (s : TypeChecker) : Nat × TypeChecker :=
  let r := TypeChecker.toPetrType ty s
  r.2.insertType r.1

mutual

/-- `replace_var_reference_types` from `petr-typecheck/src/lib.rs`: rewrite
the type variable of a `Variable` node whose identifier matches a parameter
name, recursing only into function-call arguments and intrinsic arguments;
every other expression kind falls into the source's `_ => ()` arm and is
returned unchanged. The returned `Nat` is the `num_replacements` counter. -/
def replaceVarReferenceTypes : TypedExprKind → List (Identifier × Nat) → Nat → TypedExprKind × Nat
  | .var ty name, params, n =>
    (match params.find? (fun p => p.1.id == name.id) with
     | some p => (.var p.2 name, n + 1)
     | none => (.var ty name, n))
  | .functionCall f args ty, params, n =>
    let r := replaceVarReferenceTypesArgs args params n
    (.functionCall f r.1 ty, r.2)
  | .intrinsic ty intr, params, n =>
    let r := replaceVarReferenceTypesIntrinsic intr params n
    (.intrinsic ty r.1, r.2)
  | e, _, n => (e, n)

/-- The loop over `FunctionCall` arguments inside
`replace_var_reference_types`. -/
def replaceVarReferenceTypesArgs :
    List (Identifier × TypedExpr) → List (Identifier × Nat) → Nat → List (Identifier × TypedExpr) × Nat
  | [], _, n => ([], n)
  | (name, .mk kind sp) :: rest, params, n =>
    let r1 := replaceVarReferenceTypes kind params n
    let r2 := replaceVarReferenceTypesArgs rest params r1.2
    ((name, .mk r1.1 sp) :: r2.1, r2.2)

/-- Recursion into one intrinsic argument (`&mut a.kind`). -/
def replaceVarReferenceTypesExpr : TypedExpr → List (Identifier × Nat) → Nat → TypedExpr × Nat
  | .mk kind sp, params, n =>
    let r := replaceVarReferenceTypes kind params n
    (.mk r.1 sp, r.2)

/-- The `Intrinsic` arm of `replace_var_reference_types`. -/
def replaceVarReferenceTypesIntrinsic : Intrinsic → List (Identifier × Nat) → Nat → Intrinsic × Nat
  | .puts a, params, n =>
    let r := replaceVarReferenceTypesExpr a params n
    (.puts r.1, r.2)
  | .malloc a, params, n =>
    let r := replaceVarReferenceTypesExpr a params n
    (.malloc r.1, r.2)
  | .sizeOf a, params, n =>
    let r := replaceVarReferenceTypesExpr a params n
    (.sizeOf r.1, r.2)
  | .add a b, params, n =>
    let r1 := replaceVarReferenceTypesExpr a params n
    let r2 := replaceVarReferenceTypesExpr b params r1.2
    (.add r1.1 r2.1, r2.2)
  | .subtract a b, params, n =>
    let r1 := replaceVarReferenceTypesExpr a params n
    let r2 := replaceVarReferenceTypesExpr b params r1.2
    (.subtract r1.1 r2.1, r2.2)
  | .multiply a b, params, n =>
    let r1 := replaceVarReferenceTypesExpr a params n
    let r2 := replaceVarReferenceTypesExpr b params r1.2
    (.multiply r1.1 r2.1, r2.2)
  | .divide a b, params, n =>
    let r1 := replaceVarReferenceTypesExpr a params n
    let r2 := replaceVarReferenceTypesExpr b params r1.2
    (.divide r1.1 r2.1, r2.2)
  | .equals a b, params, n =>
    let r1 := replaceVarReferenceTypesExpr a params n
    let r2 := replaceVarReferenceTypesExpr b params r1.2
    (.equals r1.1 r2.1, r2.2)

end

/-- One iteration of the argument loop in `FunctionCall::type_check`
(`petr-typecheck/src/lib.rs` lines 1186-1191): type check the argument,
read its type, push `Satisfies(paramType, argType)` at the argument's span,
and accumulate `(paramName, typedArg, argType)`. `tc` is the recursive
expression checker. -/
def callArgsStep (tc : RExpr → TypeChecker → TypedExpr × TypeChecker)
    (acc : List (Identifier × TypedExpr × Nat) × TypeChecker)
    (p : RExpr × (Identifier × Nat)) : List (Identifier × TypedExpr × Nat) × TypeChecker :=
  let ra := tc p.1 acc.2
  let argTy := ra.2.exprTy ra.1
  (acc.1 ++ [(p.2.1, ra.1, argTy)], ra.2.satisfies p.2.2 argTy ra.1.span)

/-- One iteration of the parameter-overwrite loop in
`FunctionCall::type_check` (lines 1221-1224): insert a fresh slot holding
the concrete argument type and point the (name-preserving) parameter at
it. -/
def monoParamsStep (acc : List (Identifier × Nat) × TypeChecker)
    (p : (Identifier × Nat) × PetrType) : List (Identifier × Nat) × TypeChecker :=
  let ri := acc.2.insertType p.2
  (acc.1 ++ [(p.1.1, ri.1)], ri.2)

/-- An arbitrary `Function` value returned only on fuel exhaustion of
`getFunction`/`typeCheckFunction` (unreachable at the fuel every theorem
supplies); its body is an error-recovery node so it cannot be mistaken for
a real checked function. -/
def fuelExhaustedFunction : Function :=
  { name := { id := 0, span := { source := 0, sspan := { offset := 0, length := 0 } } }
    params := []
    body := .mk (.errorRecovery { source := 0, sspan := { offset := 0, length := 0 } })
      { source := 0, sspan := { offset := 0, length := 0 } }
    returnTy := 0 }

mutual

/-- `Expr::type_check` (the `TypeCheck` impl for `petr_resolve::Expr`) from
`petr-typecheck/src/lib.rs`. `fuel` bounds the recursion depth; every
recursive call (including those through `getFunction`, which type checks a
callee on demand) decrements it, and exhaustion returns an error-recovery
node with the state unchanged (unreachable at sufficient fuel). -/
def typeCheckExpr : Nat → RExpr → TypeChecker → TypedExpr × TypeChecker
  | 0, e, s => (.mk (.errorRecovery e.span) e.span, s)
  | fuel + 1, .mk kind sp, s =>
    match kind with
    | .literal lit =>
      let r := s.convertLiteralToType lit
      (.mk (.literal lit r.1) sp, r.2)
    | .list exprs =>
      match exprs with
      | [] => (.mk (.list [] s.ctx.unitTy) sp, s)
      | _ =>
        let r := exprs.foldl
          (fun (acc : List TypedExpr × TypeChecker) e =>
            let re := typeCheckExpr fuel e acc.2
            (acc.1 ++ [re.1], re.2))
          ([], s)
        let firstTy := r.2.exprTy (r.1.headD (.mk .unit sp))
        let s2 := (r.1.drop 1).foldl (fun st e => st.unify firstTy (st.exprTy e) e.span) r.2
        let r3 := s2.insertType (.list firstTy)
        (.mk (.list r.1 r3.1) sp, r3.2)
    | .functionCall call =>
      let r := typeCheckFunctionCall fuel call s
      (.mk r.1 sp, r.2)
    | .unit => (.mk .unit sp, s)
    | .errorRecovery => (.mk (.errorRecovery sp) sp, s)
    | .var name tyAnn =>
      match s.findVariable name with
      | none => (.mk (.errorRecovery sp) sp, s)
      | some varTy =>
        let r := TypeChecker.toTypeVar tyAnn s
        let s2 := r.2.unify varTy r.1 name.span
        (.mk (.var r.1 name) sp, s2)
    | .intrinsic intr => typeCheckIntrinsic fuel sp intr s
    | .typeConstructor parentTypeId args =>
      let r := args.foldl
        (fun (acc : List TypedExpr × TypeChecker) e =>
          let re := typeCheckExpr fuel e acc.2
          (acc.1 ++ [re.1], re.2))
        ([], s)
      let ty := r.2.getType (.typeId parentTypeId)
      (.mk (.typeConstructor ty r.1) sp, r.2)
    | .exprWithBindings bindings expression =>
      let s1 := { s with variableScope := [] :: s.variableScope }
      let r := bindings.foldl
        (fun (acc : List (Identifier × TypedExpr) × TypeChecker) b =>
          let rb := typeCheckExpr fuel b.expression acc.2
          let bindingExprReturnTy := rb.2.exprTy rb.1
          (acc.1 ++ [(b.name, rb.1)], rb.2.insertVariable b.name bindingExprReturnTy))
        ([], s1)
      let rBody := typeCheckExpr fuel expression r.2
      let s4 := { rBody.2 with variableScope := rBody.2.variableScope.tail }
      (.mk (.exprWithBindings r.1 rBody.1) sp, s4)
    | .ifE condition thenBranch elseBranch =>
      let rc := typeCheckExpr fuel condition s
      let conditionTy := rc.2.exprTy rc.1
      let s2 := rc.2.unify conditionTy rc.2.ctx.boolTy rc.1.span
      let rt := typeCheckExpr fuel thenBranch s2
      let thenTy := rt.2.exprTy rt.1
      let re := typeCheckExpr fuel elseBranch rt.2
      let elseTy := re.2.exprTy re.1
      let s5 := re.2.unify thenTy elseTy re.1.span
      (.mk (.ifE rc.1 rt.1 re.1) sp, s5)

/-- The `TypeCheck` impl for `petr_resolve::FunctionCall` from
`petr-typecheck/src/lib.rs` (§4.6 of the spec): fetch the callee, arity
check, check the arguments against the parameter types, then consult the
monomorphization table keyed by the concrete argument types. -/
def typeCheckFunctionCall : Nat → RFunctionCall → TypeChecker → TypedExprKind × TypeChecker
  | 0, call, s => (.errorRecovery call.span, s)
  | fuel + 1, call, s =>
    let r0 := getFunction fuel call.function s
    let funcDecl := r0.1
    let s0 := r0.2
    if call.args.length ≠ funcDecl.params.length then
      (.errorRecovery call.span,
        s0.pushError
          ⟨.argumentCountMismatch funcDecl.params.length call.args.length (s0.getSymbol funcDecl.name.id),
            call.span⟩)
    else
      let rArgs := (call.args.zip funcDecl.params).foldl
        (callArgsStep (typeCheckExpr fuel)) ([], s0)
      let args := rArgs.1
      let s1 := rArgs.2
      let concreteArgTypes := args.map fun a => s1.lookUpVariable a.2.2
      let signature : Nat × List PetrType := (call.function, concreteArgTypes)
      if (assocLookup s1.monomorphizedFunctions signature).isSome then
        (.functionCall call.function (args.map fun a => (a.1, a.2.1)) funcDecl.returnTy, s1)
      else
        let declaredReturnType := funcDecl.returnTy
        let s2 := s1.satisfyExprReturn declaredReturnType funcDecl.body
        let rParams := (funcDecl.params.zip concreteArgTypes).foldl monoParamsStep ([], s2)
        let rBody := replaceVarReferenceTypes funcDecl.body.kind rParams.1 0
        let monomorphizedFuncDecl : Function :=
          { name := funcDecl.name, params := rParams.1, returnTy := declaredReturnType,
            body := .mk rBody.1 funcDecl.body.span }
        let s4 := { rParams.2 with
          monomorphizedFunctions := assocInsert rParams.2.monomorphizedFunctions signature monomorphizedFuncDecl }
        (.functionCall call.function (args.map fun a => (a.1, a.2.1)) declaredReturnType, s4)

/-- `unify_basic_math_op` from `petr-typecheck/src/lib.rs`. -/
def unifyBasicMathOp : Nat → RExpr → RExpr → TypeChecker → (TypedExpr × TypedExpr) × TypeChecker
  | 0, l, r, s => ((.mk (.errorRecovery l.span) l.span, .mk (.errorRecovery r.span) r.span), s)
  | fuel + 1, lhsE, rhsE, s =>
    let rl := typeCheckExpr fuel lhsE s
    let rr := typeCheckExpr fuel rhsE rl.2
    let lhsTy := rr.2.exprTy rl.1
    let rhsTy := rr.2.exprTy rr.1
    let intTy := rr.2.ctx.intTy
    let s3 := rr.2.unify intTy lhsTy rl.1.span
    let s4 := s3.unify intTy rhsTy rr.1.span
    ((rl.1, rr.1), s4)

/-- The `TypeCheck` impl for `SpannedItem<ResolvedIntrinsic>` from
`petr-typecheck/src/lib.rs`. The source hits `todo!()` (a panic) when an
intrinsic's argument count is wrong; that is modelled by an error-recovery
result with the state unchanged. -/
def typeCheckIntrinsic : Nat → Span → RIntrinsic → TypeChecker → TypedExpr × TypeChecker
  | 0, sp, _, s => (.mk (.errorRecovery sp) sp, s)
  | fuel + 1, sp, .mk name args, s =>
    match name with
    | .puts =>
      match args with
      | [argE] =>
        let ra := typeCheckExpr fuel argE s
        let s2 := ra.2.unifyExprReturn ra.2.ctx.stringTy ra.1
        (.mk (.intrinsic s2.ctx.unitTy (.puts ra.1)) sp, s2)
      | _ => (.mk (.errorRecovery sp) sp, s)
    | .add =>
      match args with
      | [a, b] =>
        let r := unifyBasicMathOp fuel a b s
        (.mk (.intrinsic r.2.ctx.intTy (.add r.1.1 r.1.2)) sp, r.2)
      | _ => (.mk (.errorRecovery sp) sp, s)
    | .subtract =>
      match args with
      | [a, b] =>
        let r := unifyBasicMathOp fuel a b s
        (.mk (.intrinsic r.2.ctx.intTy (.subtract r.1.1 r.1.2)) sp, r.2)
      | _ => (.mk (.errorRecovery sp) sp, s)
    | .multiply =>
      match args with
      | [a, b] =>
        let r := unifyBasicMathOp fuel a b s
        (.mk (.intrinsic r.2.ctx.intTy (.multiply r.1.1 r.1.2)) sp, r.2)
      | _ => (.mk (.errorRecovery sp) sp, s)
    | .divide =>
      match args with
      | [a, b] =>
        let r := unifyBasicMathOp fuel a b s
        (.mk (.intrinsic r.2.ctx.intTy (.divide r.1.1 r.1.2)) sp, r.2)
      | _ => (.mk (.errorRecovery sp) sp, s)
    | .malloc =>
      match args with
      | [argE] =>
        let ra := typeCheckExpr fuel argE s
        let argTy := ra.2.exprTy ra.1
        let intTy := ra.2.ctx.intTy
        let s2 := ra.2.unify argTy intTy ra.1.span
        (.mk (.intrinsic intTy (.malloc ra.1)) sp, s2)
      | _ => (.mk (.errorRecovery sp) sp, s)
    | .sizeOf =>
      match args with
      | [argE] =>
        let ra := typeCheckExpr fuel argE s
        (.mk (.intrinsic ra.2.ctx.intTy (.sizeOf ra.1)) sp, ra.2)
      | _ => (.mk (.errorRecovery sp) sp, s)
    | .equals =>
      match args with
      | [lhsE, rhsE] =>
        let rl := typeCheckExpr fuel lhsE s
        let rr := typeCheckExpr fuel rhsE rl.2
        let s3 := rr.2.unify (rr.2.exprTy rl.1) (rr.2.exprTy rr.1) sp
        (.mk (.intrinsic s3.ctx.boolTy (.equals rl.1 rr.1)) sp, s3)
      | _ => (.mk (.errorRecovery sp) sp, s)

/-- The `TypeCheck` impl for `petr_resolve::Function` from
`petr-typecheck/src/lib.rs`: open a scope, convert and bind the parameters,
type check the body, convert the declared return type, close the scope. -/
def typeCheckFunction : Nat → RFunction → TypeChecker → Function × TypeChecker
  | 0, _, s => (fuelExhaustedFunction, s)
  | fuel + 1, rf, s =>
    let s1 := { s with variableScope := [] :: s.variableScope }
    let rParams := rf.params.foldl
      (fun (acc : List (Identifier × Nat) × TypeChecker) p =>
        let rv := TypeChecker.toTypeVar p.2 acc.2
        (acc.1 ++ [(p.1, rv.1)], rv.2))
      ([], s1)
    let s2 := rParams.1.foldl (fun st p => st.insertVariable p.1 p.2) rParams.2
    let rBody := typeCheckExpr fuel rf.body s2
    let rRet := TypeChecker.toTypeVar rf.returnType rBody.2
    let s5 := { rRet.2 with variableScope := rRet.2.variableScope.tail }
    ({ name := rf.name, params := rParams.1, returnTy := rRet.1, body := rBody.1 }, s5)

/-- `TypeChecker::get_function`: return the cached typed function, or type
check the resolved declaration on demand and cache it. -/
def getFunction : Nat → Nat → TypeChecker → Function × TypeChecker
  | 0, _, s => (fuelExhaustedFunction, s)
  | fuel + 1, id, s =>
    match assocLookup s.typedFunctions id with
    | some func => (func, s)
    | none =>
      let rf := s.resolved.functions id
      let r := typeCheckFunction fuel rf s
      (r.1, { r.2 with typedFunctions := assocInsert r.2.typedFunctions id r.1 })

end

/-- Modelled from the spec (§4.5, the `If` collection rule): the resolver,
whose module `petr-resolve/src/resolver.rs` is not among the provided
sources, lowers an `If` with a missing `else` into an else branch that is a
`Unit` expression (the resolved `If` the type checker consumes always has
both branches). The synthesized branch's span is the resolver's choice;
the whole if expression's span is used here. -/
def resolveElseBranch (elseBranch : Option RExpr) (ifSpan : Span) : RExpr :=
  elseBranch.getD (.mk .unit ifSpan)

/-- `SpannedItem::map`. -/
def SpannedItem.map {α β : Type} (si : SpannedItem α) (f : α → β) : SpannedItem β :=
  { item := f si.item, span := si.span }

/-- Modelled from the spec (§4.1): the token set of the petr lexer
(`petr-parse/src/lexer.rs` is not among the provided sources); the
constructors cover the spec's token list, and `comment` carries its text so
the parser's comment harvesting can be expressed. -/
inductive Token where
  | openParen
  | closeParen
  | openBracket
  | closeBracket
  | plus
  | minus
  | slash
  | star
  | equality
  | integer
  | stringLit
  | boolTrue
  | boolFalse
  | identifier
  | functionKeyword
  | bigFunctionKeyword
  | inKeyword
  | returnsKeyword
  | letKeyword
  | typeKeyword
  | importKeyword
  | exportKeyword
  | asKeyword
  | isInSymbol
  | tyMarker
  | atMarker
  | tilde
  | comma
  | newline
  | comment : String → Token
  | eof
deriving DecidableEq, Repr

/-- Modelled from the spec: the `Display` rendering of tokens, used only
inside the parser's help strings. -/
def Token.display : Token → String
  | .openParen => "("
  | .closeParen => ")"
  | .openBracket => "["
  | .closeBracket => "]"
  | .plus => "+"
  | .minus => "-"
  | .slash => "/"
  | .star => "*"
  | .equality => "="
  | .integer => "integer"
  | .stringLit => "string"
  | .boolTrue => "true"
  | .boolFalse => "false"
  | .identifier => "identifier"
  | .functionKeyword => "function"
  | .bigFunctionKeyword => "Function"
  | .inKeyword => "in"
  | .returnsKeyword => "returns"
  | .letKeyword => "let"
  | .typeKeyword => "type"
  | .importKeyword => "import"
  | .exportKeyword => "export"
  | .asKeyword => "as"
  | .isInSymbol => "∈"
  | .tyMarker => "'"
  | .atMarker => "@"
  | .tilde => "~"
  | .comma => ","
  | .newline => "newline"
  | .comment _ => "comment"
  | .eof => "EOF"

/-- `ParseErrorKind` from `petr-parse/src/parser.rs`. -/
inductive ParseErrorKind where
  | unmatchedParenthesis
  | expectedIdentifier : String → ParseErrorKind
  | expectedToken : Token → Token → ParseErrorKind
  | expectedOneOf : List Token → Token → ParseErrorKind
  | internalError : String → ParseErrorKind
  | invalidIdentifier : String → ParseErrorKind
  | internalSpanError : SourceSpan → SourceSpan → ParseErrorKind
  | lexerError
deriving DecidableEq, Repr

/-- `ParseError { kind, help }` from `petr-parse/src/parser.rs`. -/
structure ParseError where
  kind : ParseErrorKind
  help : Option String
deriving DecidableEq, Repr

/-- `ParseErrorKind::into_err` (the `From` impl). -/
def ParseErrorKind.intoErr (k : ParseErrorKind) : ParseError :=
  { kind := k, help := none }

/-- `ParseError::with_help`. -/
def ParseError.withHelp (e : ParseError) (h : Option String) : ParseError :=
  { e with help := h }

/-- Modelled from the spec (§4.1, §9 "Backtracking parser"): the lexer is a
cheaply cloneable cursor over the token stream; after the last source ends
it emits `Eof` forever at the span of the last lexed token. `lastSpan` is
what `Lexer::span()` reports: the span of the most recently lexed token. -/
structure Lexer where
  toks : List (SpannedItem Token)
  lastSpan : Span
deriving DecidableEq

/-- `Lexer::span`. -/
def Lexer.span (l : Lexer) : Span :=
  l.lastSpan

/-- `Parser` from `petr-parse/src/parser.rs`, restricted to the fields the
verified operations touch (the symbol interner, the source map and the
expression-id counter play no role in `one_of`, `token`, `peek`, `advance`
or `with_backtrack`). `peek` is the one-token peek buffer. -/
structure Parser where
  lexer : Lexer
  errors : List (SpannedItem ParseError)
  comments : List (SpannedItem String)
  peek : Option (SpannedItem Token)
  help : List String
deriving DecidableEq

/-- `Parser::push_error` from `petr-parse/src/parser.rs`: with an empty help
stack the bare error is recorded; otherwise each stacked help line is
rendered with two-space indentation, an arrow on every line but the first,
and a "while parsing "/"expected " marker, joined with newlines. -/
def Parser.pushError (p : Parser) (err : SpannedItem ParseErrorKind) : Parser :=
  if p.help.isEmpty then
    { p with errors := p.errors ++ [err.map ParseErrorKind.intoErr] }
  else
    let helpText := p.help.enum.map fun pair =>
      let indentation := pair.1
      let isLast := indentation = p.help.length - 1
      String.join (List.replicate indentation "  ")
        ++ (if indentation = 0 then "" else "↪ ")
        ++ (if isLast then "expected " else "while parsing ")
        ++ pair.2
    let e := err.map fun k => (ParseErrorKind.intoErr k).withHelp (some (String.intercalate "\n" helpText))
    { p with errors := p.errors ++ [e] }

/-- `Parser::advance` from `petr-parse/src/parser.rs`: drain the peek
buffer if filled, otherwise lex (the spec-modelled lexer is inlined here:
consuming a token records its span as the lexer's current span, and an
exhausted stream yields `Eof` forever); `Newline` tokens are skipped and
`Comment` tokens are harvested into the comment side channel, recursing in
both cases. -/
def Parser.advance (p : Parser) : SpannedItem Token × Parser :=
  match p.peek with
  | some tok => (tok, { p with peek := none })
  | none =>
    match h : p.lexer.toks with
    | [] => ({ item := Token.eof, span := p.lexer.lastSpan }, p)
    | t :: rest =>
      let p1 := { p with lexer := { toks := rest, lastSpan := t.span } }
      match t.item with
      | .newline => Parser.advance p1
      | .comment content =>
        Parser.advance { p1 with comments := p1.comments ++ [{ item := content, span := t.span }] }
      | _ => (t, p1)
termination_by p.lexer.toks.length
decreasing_by all_goals simp [h]

/-- `Parser::peek` (named `peekToken` because the buffer field already
carries the source name): idempotent lookahead that fills the buffer on
demand. -/
def Parser.peekToken (p : Parser) : SpannedItem Token × Parser :=
  match p.peek with
  | some pk => (pk, p)
  | none =>
    let r := p.advance
    (r.1, { r.2 with peek := some r.1 })

/-- `Parser::with_help`: push the message for the duration of `f`. -/
def Parser.withHelp {T : Type} (p : Parser) (helpText : String) (f : Parser → T × Parser) : T × Parser :=
  let r := f { p with help := p.help ++ [helpText] }
  (r.1, { r.2 with help := r.2.help.dropLast })

/-- `Parser::try_token`: non-erroring; advances only on a match. -/
def Parser.tryToken (p : Parser) (tok : Token) : Option (SpannedItem Token) × Parser :=
  let r := p.peekToken
  if r.1.item = tok then
    let ra := r.2.advance
    (some ra.1, ra.2)
  else (none, r.2)

/-- `Parser::token` from `petr-parse/src/parser.rs`: under a help frame,
peek; on a match consume and return the token, otherwise push
`ExpectedToken(expected, actual)` at the lexer's current span and return
`none`. -/
def Parser.token (p : Parser) (tok : Token) : Option (SpannedItem Token) × Parser :=
  p.withHelp ("while parsing token " ++ tok.display) fun p1 =>
    let r := p1.peekToken
    if r.1.item = tok then
      let ra := r.2.advance
      (some ra.1, ra.2)
    else
      (none, r.2.pushError { item := .expectedToken tok r.1.item, span := r.2.lexer.span })

/-- `Parser::one_of` from `petr-parse/src/parser.rs`. The Rust function is
generic over the const length `N` of the token array; the list's length
plays that role. On a peeked token contained in the list, delegate to
`token` (consuming it); otherwise push `ExpectedToken(toks[0], actual)`
when `N == 1` and `ExpectedOneOf(toks, actual)` otherwise, returning
`none`. -/
def Parser.oneOf (p : Parser) (toks : List Token) : Option (SpannedItem Token) × Parser :=
  let r := p.peekToken
  let tok := r.1.item
  if toks.contains tok then r.2.token tok
  else if toks.length = 1 then
    (none, r.2.pushError { item := .expectedToken (toks.headD .eof) tok, span := r.2.lexer.span })
  else
    (none, r.2.pushError { item := .expectedOneOf toks tok, span := r.2.lexer.span })

/-- `Checkpoint` from `petr-parse/src/parser.rs`: the error count, a clone
of the lexer, and the peek buffer. -/
structure Checkpoint where
  errors : Nat
  lexer : Lexer
  peek : Option (SpannedItem Token)

/-- `Parser::checkpoint`. -/
def Parser.checkpoint (p : Parser) : Checkpoint :=
  { errors := p.errors.length, lexer := p.lexer, peek := p.peek }

/-- `Parser::restore_checkpoint`: restore lexer and peek buffer and
truncate the error list back to the checkpointed count
(`Vec::split_off`), returning the split-off suffix. -/
def Parser.restoreCheckpoint (p : Parser) (c : Checkpoint) :
    List (SpannedItem ParseError) × Parser :=
  (p.errors.drop c.errors,
    { p with lexer := c.lexer, peek := c.peek, errors := p.errors.take c.errors })

/-- `Parser::with_backtrack` from `petr-parse/src/parser.rs`: checkpoint,
run `f`; on `None` restore the checkpoint and hand the errors produced
during `f` back as the `Err` value; on `Some` keep `f`'s state. -/
def Parser.withBacktrack {T : Type} (p : Parser) (f : Parser → Option T × Parser) :
    (Except (List (SpannedItem ParseError)) T) × Parser :=
  let c := p.checkpoint
  let r := f p
  match r.1 with
  | some v => (.ok v, r.2)
  | none =>
    let rr := r.2.restoreCheckpoint c
    (.error rr.1, rr.2)

/-- Follow `Ref` forwarding from slot `v` for at most `steps` derefs,
returning the first non-`Ref` slot content reached (`none` if the budget
runs out on a `Ref`). This names the ref chains whose termination the spec
asserts (§3, §8.2). -/
def derefChain (types : List PetrType) : Nat → Nat → Option PetrType
  | 0, v =>
    match TypeContext.getTy types v with
    | .ref _ => none
    | t => some t
  | steps + 1, v =>
    match TypeContext.getTy types v with
    | .ref w => derefChain types steps w
    | t => some t

/-- Closed form of the accumulated `(paramName, typedArg, argType)` triples
produced by the argument loop of `FunctionCall::type_check` when every
argument is a literal: the i-th literal is typed with the fresh slot
`base + i`. -/
def litCallArgs (base : Nat) : List (Literal × Span) → List (Identifier × Nat) →
    List (Identifier × TypedExpr × Nat)
  | l :: ls, p :: ps => (p.1, .mk (.literal l.1 base) l.2, base) :: litCallArgs (base + 1) ls ps
  | _, _ => []

/-- Closed form of the `Satisfies(paramType, argType)` constraints pushed
by the argument loop on literal arguments. -/
def litCallCons (base : Nat) : List (Literal × Span) → List (Identifier × Nat) →
    List TypeConstraint
  | l :: ls, p :: ps => { kind := .satisfies p.2 base, span := l.2 } :: litCallCons (base + 1) ls ps
  | _, _ => []

/-- Closed form of the overwritten parameter list produced by the
monomorphization parameter loop: names kept, type variables replaced by the
fresh slots `base`, `base + 1`, …. -/
def monoParamSlots (base : Nat) : List (Identifier × Nat) → List PetrType → List (Identifier × Nat)
  | p :: ps, _ :: ts => (p.1, base) :: monoParamSlots (base + 1) ps ts
  | _, _ => []

/-- A zero span used by the concrete fixtures below. -/
def sampleSpan : Span :=
  { source := 0, sspan := { offset := 0, length := 0 } }

/-- A second, distinct span for fixtures. -/
def sampleSpan2 : Span :=
  { source := 0, sspan := { offset := 100, length := 8 } }

/-- A resolved-items fixture: interner mapping symbol 10 to "add", and a
trivial resolved function behind every id. -/
def sampleResolved : QueryableResolvedItems :=
  { interner := fun n => if n = 10 then "add" else ""
    functions := fun _ =>
      { name := { id := 0, span := sampleSpan }, params := [], returnType := .unit,
        body := .mk .unit sampleSpan } }

/-- A checker fixture: fresh context, no cached functions, no errors. -/
def baseChecker : TypeChecker :=
  { ctx := TypeContext.default
    typeMap := []
    monomorphizedFunctions := []
    typedFunctions := []
    errors := []
    resolved := sampleResolved
    variableScope := [] }

/-- A typed two-parameter function fixture named "add" (symbol 10),
matching the spec's arity scenario. -/
def addDecl : Function :=
  { name := { id := 10, span := sampleSpan }
    params := [({ id := 1, span := sampleSpan }, 5), ({ id := 2, span := sampleSpan }, 6)]
    body := .mk (.var 5 { id := 1, span := sampleSpan }) sampleSpan
    returnTy := 7 }

/-- `baseChecker` with `addDecl` cached as function 0. -/
def addChecker : TypeChecker :=
  { baseChecker with typedFunctions := [(0, addDecl)] }

/-- A parser fixture: empty stream, a buffered `,` token, no errors, no
help frames; the lexer's current span is `sampleSpan2`. -/
def sampleParser : Parser :=
  { lexer := { toks := [], lastSpan := sampleSpan2 }
    errors := []
    comments := []
    peek := some { item := Token.comma, span := sampleSpan }
    help := [] }
/-- `baseChecker` with one extra slot (index 5) holding
`Literal(Integer(5))`. -/
def litChecker : TypeChecker :=
  { baseChecker with
    ctx := { baseChecker.ctx with
      types := baseChecker.ctx.types ++ [.lit (.integer 5)] } }
/-- The resolved intrinsic `@add(5, 6)`. -/
def addIntrinsicExpr : RIntrinsic :=
  .mk .add [.mk (.literal (.integer 5)) sampleSpan, .mk (.literal (.integer 6)) sampleSpan2]
/-- The resolved literal `true` used as an if condition in fixtures. -/
def condExpr : RExpr := .mk (.literal (.boolean true)) sampleSpan
/-- The resolved literal `1` used as a then branch in fixtures. -/
def thenExpr : RExpr := .mk (.literal (.integer 1)) sampleSpan2
/-- The call `~add(5)` (one argument). -/
def callOneArg : RFunctionCall := .mk 0 [.mk (.literal (.integer 5)) sampleSpan2] sampleSpan2
/-- The call `~add(5, 6)` (two arguments). -/
def callTwoArgs : RFunctionCall :=
  .mk 0 [.mk (.literal (.integer 5)) sampleSpan2, .mk (.literal (.integer 6)) sampleSpan2] sampleSpan2
/-- `addChecker` with the `(add, [Literal 5, Literal 6])` specialization
already present in the monomorphization table. -/
def monoChecker : TypeChecker :=
  { addChecker with monomorphizedFunctions :=
      [((0, [PetrType.lit (.integer 5), PetrType.lit (.integer 6)]), addDecl)] }
/-- A one-parameter typed function whose body is a let-binding expression
(`let a = 7; x`): the variable reference to the parameter `x` (symbol 1,
slot 7) sits nested under the binding. -/
def bindDecl : Function :=
  { name := { id := 10, span := sampleSpan }
    params := [({ id := 1, span := sampleSpan }, 5)]
    body := .mk (.exprWithBindings
        [({ id := 3, span := sampleSpan }, .mk (.literal (.integer 7) 8) sampleSpan)]
        (.mk (.var 7 { id := 1, span := sampleSpan }) sampleSpan)) sampleSpan
    returnTy := 9 }
/-- `baseChecker` with `bindDecl` cached as function 0. -/
def bindChecker : TypeChecker :=
  { baseChecker with typedFunctions := [(0, bindDecl)] }
/-- A call to `bindDecl` with the literal argument `1`. -/
def bindCall : RFunctionCall := .mk 0 [.mk (.literal (.integer 1)) sampleSpan2] sampleSpan2

/-- C8: joining two spans of the same source yields a span in that source
whose offset is the minimum of the two offsets and whose end is the maximum
of the two ends (hence the end never precedes the start), while joining
spans of different sources fails (the source asserts) instead of returning
a span. -/
theorem C8_span_join (a b : Span) :
    (a.source = b.source →
      ∃ j, a.join b = some j ∧ j.source = a.source ∧
        j.sspan.offset = min a.sspan.offset b.sspan.offset ∧
        j.sspan.offset + j.sspan.length
          = max (a.sspan.offset + a.sspan.length) (b.sspan.offset + b.sspan.length) ∧
        j.sspan.offset ≤ j.sspan.offset + j.sspan.length)
    ∧ (a.source ≠ b.source → a.join b = none) := by
  constructor
  · intro hsrc
    unfold Span.join
    rw [if_neg (by simp [hsrc])]
    refine ⟨_, rfl, rfl, ?_, ?_, Nat.le_add_right _ _⟩
    · dsimp only
      split_ifs with h <;> omega
    · dsimp only
      split_ifs with h <;> omega
  · intro hsrc
    simp [Span.join, hsrc]

theorem C8_span_join_witness :
    Span.join { source := 0, sspan := { offset := 4, length := 10 } }
        { source := 0, sspan := { offset := 2, length := 3 } }
      = some { source := 0, sspan := { offset := 2, length := 12 } }
    ∧ Span.join { source := 0, sspan := { offset := 4, length := 10 } }
        { source := 1, sspan := { offset := 2, length := 3 } }
      = none := by
  refine ⟨by decide, ?_⟩
  exact (C8_span_join { source := 0, sspan := { offset := 4, length := 10 } }
    { source := 1, sspan := { offset := 2, length := 3 } }).2 (by decide)

/-- C2: the `Sum` arm of `is_generalized_of` tests the reverse inclusion of
the one its own doc comment ("a superset of the sum types") and the spec
define: the code accepts `Sum(A)` as a generalization of `S` iff every
member of `A` is in `S`, whereas the documented relation requires every
member of `S` to be in `A`. At `A = [Literal 1]`, `S = [Literal 1,
Literal 2]` the code returns `true` while the documented relation is
`false`. -/
theorem C2_is_generalized_of_sum_direction :
    PetrType.isGeneralizedOf 1 (.sum [.lit (.integer 1)])
        [.lit (.integer 1), .lit (.integer 2)] [] = true
    ∧ specGeneralizes 1 (.sum [.lit (.integer 1)])
        [.lit (.integer 1), .lit (.integer 2)] [] = false
    ∧ ∀ (A S types : List PetrType) (fuel : Nat),
        PetrType.isGeneralizedOf fuel (.sum A) S types = A.all fun ty => S.contains ty := by
  refine ⟨by decide, by decide, fun A S types fuel => ?_⟩
  simp [PetrType.isGeneralizedOf]

/-- C7: `with_backtrack(f)` returns `Ok(v)` with `f`'s final state when `f`
produces a value; when `f` returns `None` it hands back exactly the errors
`f` produced as the `Err` value and restores the lexer, the peek buffer and
the error list to their checkpointed values. The hypothesis states that `f`
only appends errors, which every parser production does (`push_error` is
the sole mutation); `Vec::split_off` would panic otherwise. -/
theorem C7_with_backtrack {T : Type} (p : Parser) (f : Parser → Option T × Parser)
    (newErrs : List (SpannedItem ParseError))
    (h : (f p).2.errors = p.errors ++ newErrs) :
    ((f p).1 = none →
      p.withBacktrack f
        = (.error newErrs,
            { lexer := p.lexer, errors := p.errors, comments := (f p).2.comments,
              peek := p.peek, help := (f p).2.help }))
    ∧ (∀ v, (f p).1 = some v → p.withBacktrack f = (.ok v, (f p).2)) := by
  constructor
  · intro hn
    simp only [Parser.withBacktrack, Parser.checkpoint, Parser.restoreCheckpoint, hn, h,
      List.take_left, List.drop_left]
  · intro v hv
    simp only [Parser.withBacktrack, Parser.checkpoint, Parser.restoreCheckpoint, hv]

theorem C7_with_backtrack_witness :
    sampleParser.withBacktrack
        (fun q => ((none : Option Nat),
          q.pushError { item := .lexerError, span := sampleSpan }))
      = (.error [{ item := { kind := .lexerError, help := none }, span := sampleSpan }],
          sampleParser) := by
  have h := C7_with_backtrack sampleParser
    (fun q => ((none : Option Nat), q.pushError { item := .lexerError, span := sampleSpan }))
    [{ item := { kind := .lexerError, help := none }, span := sampleSpan }] (by decide)
  exact h.1 rfl

/-- The peek buffer is filled after `peek`. -/
theorem Parser.peekToken_peek_eq (p : Parser) :
    (p.peekToken).2.peek = some (p.peekToken).1 := by
  unfold Parser.peekToken
  cases hp : p.peek <;> simp [hp]

/-- `token` on a parser whose buffer already holds the expected token:
consume it and return it, leaving everything else (help stack included)
untouched. -/
theorem Parser.token_of_buffered (q : Parser) (pk : SpannedItem Token)
    (hq : q.peek = some pk) :
    q.token pk.item = (some pk, { q with peek := none }) := by
  unfold Parser.token Parser.withHelp Parser.peekToken Parser.advance
  simp [hq, List.dropLast_concat]

/-- C9 counterexample: `one_of` with the single-element list `[(]` and a
peeked `,` pushes `ExpectedToken((, ,))` — not the `ExpectedOneOf` the
claim asserts for every list length. -/
theorem C9_one_of_counterexample :
    (sampleParser.oneOf [Token.openParen]).2.errors
      = [{ item := { kind := .expectedToken .openParen .comma, help := none },
           span := sampleSpan2 }]
    ∧ (sampleParser.oneOf [Token.openParen]).1 = none := by
  decide

/-- C9 as amended: on a peeked token not in the (non-empty) list, `one_of`
pushes `ExpectedOneOf` carrying the full expected list and the actual token
when the list has two or more elements, but pushes
`ExpectedToken(toks[0], actual)` when the list has exactly one element; in
both cases it returns `none`. On a match the token is consumed (the peek
buffer is drained) and returned. `push_error` appends exactly one error
carrying the pushed kind at the given span. -/
theorem C9_one_of_amended (p : Parser) (toks : List Token) :
    (p.peekToken.1.item ∉ toks → toks.length ≠ 1 →
      p.oneOf toks
        = (none, p.peekToken.2.pushError
            { item := .expectedOneOf toks p.peekToken.1.item, span := p.peekToken.2.lexer.span }))
    ∧ (p.peekToken.1.item ∉ toks → toks.length = 1 →
      p.oneOf toks
        = (none, p.peekToken.2.pushError
            { item := .expectedToken (toks.headD .eof) p.peekToken.1.item,
              span := p.peekToken.2.lexer.span }))
    ∧ (p.peekToken.1.item ∈ toks →
      p.oneOf toks = (some p.peekToken.1, { p.peekToken.2 with peek := none }))
    ∧ ∀ (k : ParseErrorKind) (sp : Span),
        ((p.peekToken.2.pushError { item := k, span := sp }).errors).map
            (fun e => (e.item.kind, e.span))
          = (p.peekToken.2.errors.map fun e => (e.item.kind, e.span)) ++ [(k, sp)] := by
  refine ⟨?_, ?_, ?_, ?_⟩
  · intro hmem hlen
    have hc : toks.contains p.peekToken.1.item = false := by
      simpa using hmem
    simp only [Parser.oneOf, hc, Bool.false_eq_true, if_false, hlen, ite_false]
  · intro hmem hlen
    have hc : toks.contains p.peekToken.1.item = false := by
      simpa using hmem
    simp only [Parser.oneOf, hc, Bool.false_eq_true, if_false, hlen, ite_true]
  · intro hmem
    have hc : toks.contains p.peekToken.1.item = true := by
      simpa using hmem
    have htok := Parser.token_of_buffered p.peekToken.2 p.peekToken.1
      (Parser.peekToken_peek_eq p)
    simp only [Parser.oneOf, hc, if_true, htok]
  · intro k sp
    unfold Parser.pushError
    by_cases hh : p.peekToken.2.help.isEmpty
    · simp [hh, SpannedItem.map, ParseErrorKind.intoErr]
    · simp [hh, SpannedItem.map, ParseErrorKind.intoErr, ParseError.withHelp]

theorem C9_one_of_amended_witness :
    (sampleParser.oneOf [Token.openParen, Token.tilde]).2.errors
      = [{ item := { kind := .expectedOneOf [Token.openParen, Token.tilde] .comma, help := none },
           span := sampleSpan2 }]
    ∧ (sampleParser.oneOf [Token.comma, Token.openParen]).1
      = some { item := Token.comma, span := sampleSpan } := by
  have h1 := (C9_one_of_amended sampleParser [Token.openParen, Token.tilde]).1
    (by decide) (by decide)
  have h2 := (C9_one_of_amended sampleParser [Token.comma, Token.openParen]).2.2.1
    (by decide)
  rw [h1, h2]
  exact ⟨by decide, by decide⟩

/-- C10 counterexample: the int sentinel (slot 3) holds `Integer` at
construction, but after collecting `@add(5, 6)`'s constraints
(`unify_basic_math_op` unifies the shared int sentinel with each operand)
and solving them, the sentinel's slot holds
`Sum([Literal(Integer(5)), Literal(Integer(6))])`, not `Integer`: solving
does not preserve the sentinel slots. -/
theorem C10_sentinel_counterexample :
    TypeContext.getTy baseChecker.ctx.types baseChecker.ctx.intTy = PetrType.integer
    ∧ TypeContext.getTy
        (((typeCheckIntrinsic 3 sampleSpan addIntrinsicExpr baseChecker).2).applyConstraints 9).ctx.types
        baseChecker.ctx.intTy
      = PetrType.sum [.lit (.integer 5), .lit (.integer 6)] := by
  constructor
  · decide
  · decide

/-- C10 amended: the sentinel slots created by `TypeContext::default` hold
`Unit`, `String`, `Integer` and `Boolean` respectively, but constraint
solving does not preserve them: solving a `Unify` between the int sentinel
and any slot holding an integer `Literal` rewrites the sentinel's slot in
place to that `Literal` type (the primitive-vs-literal arm collapses `t1`
to the literal), so after the `Unify` constraints collected by arithmetic
intrinsics are solved the int sentinel can hold a `Literal` or `Sum`
type. -/
theorem C10_sentinel_amended :
    (TypeContext.getTy TypeContext.default.types TypeContext.default.unitTy = .unit
      ∧ TypeContext.getTy TypeContext.default.types TypeContext.default.stringTy = .string
      ∧ TypeContext.getTy TypeContext.default.types TypeContext.default.intTy = .integer
      ∧ TypeContext.getTy TypeContext.default.types TypeContext.default.boolTy = .boolean)
    ∧ ∀ (s : TypeChecker) (t2 : Nat) (n : Int) (span : Span) (fuel : Nat),
        TypeContext.getTy s.ctx.types s.ctx.intTy = .integer →
        TypeContext.getTy s.ctx.types t2 = .lit (.integer n) →
        TypeChecker.applyUnifyConstraint fuel s.ctx.intTy t2 span s
          = s.updateTy s.ctx.intTy (.lit (.integer n)) := by
  refine ⟨⟨by decide, by decide, by decide, by decide⟩, ?_⟩
  intro s t2 n span fuel h1 h2
  simp only [TypeChecker.applyUnifyConstraint, h1, h2]
  simp

theorem C10_sentinel_amended_witness :
    TypeChecker.applyUnifyConstraint 0 litChecker.ctx.intTy 5 sampleSpan litChecker
      = litChecker.updateTy litChecker.ctx.intTy (.lit (.integer 5)) :=
  C10_sentinel_amended.2 litChecker 5 5 sampleSpan 0 (by decide) (by decide)

/-- Stepping a deref chain through a `Ref` slot. -/
theorem derefChain_ref (types : List PetrType) (n v w : Nat)
    (h : TypeContext.getTy types v = .ref w) :
    derefChain types (n + 1) v = derefChain types n w := by
  conv_lhs => unfold derefChain
  rw [h]

/-- A deref chain starting at a non-`Ref` slot returns that slot. -/
theorem derefChain_nonref (types : List PetrType) (n v : Nat)
    (h : ∀ w, TypeContext.getTy types v ≠ PetrType.ref w) :
    derefChain types n v = some (TypeContext.getTy types v) := by
  cases n <;> unfold derefChain <;> rcases hg : TypeContext.getTy types v <;> simp_all

/-- Unifying a slot with an equal slot is a no-op. -/
theorem applyUnify_same (fuel : Nat) (s : TypeChecker) (t1 t2 : Nat) (span : Span)
    (h : TypeContext.getTy s.ctx.types t1 = TypeContext.getTy s.ctx.types t2) :
    TypeChecker.applyUnifyConstraint fuel t1 t2 span s = s := by
  unfold TypeChecker.applyUnifyConstraint
  simp [h]

/-- Unifying when the left slot is `ErrorRecovery` is a no-op. -/
theorem applyUnify_er1 (fuel : Nat) (s : TypeChecker) (t1 t2 : Nat) (span : Span)
    (h : TypeContext.getTy s.ctx.types t1 = .errorRecovery) :
    TypeChecker.applyUnifyConstraint fuel t1 t2 span s = s := by
  by_cases heq : TypeContext.getTy s.ctx.types t1 = TypeContext.getTy s.ctx.types t2
  · exact applyUnify_same fuel s t1 t2 span heq
  · unfold TypeChecker.applyUnifyConstraint
    rcases h2 : TypeContext.getTy s.ctx.types t2 <;> simp_all

/-- Unifying when the right slot is `ErrorRecovery` is a no-op. -/
theorem applyUnify_er2 (fuel : Nat) (s : TypeChecker) (t1 t2 : Nat) (span : Span)
    (h : TypeContext.getTy s.ctx.types t2 = .errorRecovery) :
    TypeChecker.applyUnifyConstraint fuel t1 t2 span s = s := by
  by_cases heq : TypeContext.getTy s.ctx.types t1 = TypeContext.getTy s.ctx.types t2
  · exact applyUnify_same fuel s t1 t2 span heq
  · unfold TypeChecker.applyUnifyConstraint
    rcases h1 : TypeContext.getTy s.ctx.types t1 <;> simp_all

/-- Unify forwards through a left `Ref`. -/
theorem applyUnify_ref1 (fuel : Nat) (s : TypeChecker) (t1 t2 w : Nat) (span : Span)
    (h1 : TypeContext.getTy s.ctx.types t1 = .ref w)
    (h2 : TypeContext.getTy s.ctx.types t2 ≠ .errorRecovery)
    (hne : TypeContext.getTy s.ctx.types t1 ≠ TypeContext.getTy s.ctx.types t2) :
    TypeChecker.applyUnifyConstraint (fuel + 1) t1 t2 span s
      = TypeChecker.applyUnifyConstraint fuel w t2 span s := by
  conv_lhs => unfold TypeChecker.applyUnifyConstraint
  rcases hg : TypeContext.getTy s.ctx.types t2 <;> simp_all

/-- Unify forwards through a right `Ref` once the left side is neither a
`Ref` nor `ErrorRecovery`. -/
theorem applyUnify_ref2 (fuel : Nat) (s : TypeChecker) (t1 t2 b : Nat) (span : Span)
    (h1 : ∀ u, TypeContext.getTy s.ctx.types t1 ≠ .ref u)
    (h1' : TypeContext.getTy s.ctx.types t1 ≠ .errorRecovery)
    (h2 : TypeContext.getTy s.ctx.types t2 = .ref b)
    (hne : TypeContext.getTy s.ctx.types t1 ≠ TypeContext.getTy s.ctx.types t2) :
    TypeChecker.applyUnifyConstraint (fuel + 1) t1 t2 span s
      = TypeChecker.applyUnifyConstraint fuel t1 b span s := by
  conv_lhs => unfold TypeChecker.applyUnifyConstraint
  rcases hg : TypeContext.getTy s.ctx.types t1 <;> simp_all

/-- Satisfying between equal slots is a no-op. -/
theorem applySatisfies_same (fuel : Nat) (s : TypeChecker) (t1 t2 : Nat) (span : Span)
    (h : TypeContext.getTy s.ctx.types t1 = TypeContext.getTy s.ctx.types t2) :
    TypeChecker.applySatisfiesConstraint fuel t1 t2 span s = s := by
  unfold TypeChecker.applySatisfiesConstraint
  simp [h]

/-- Satisfying with `ErrorRecovery` on the left is a no-op. -/
theorem applySatisfies_er1 (fuel : Nat) (s : TypeChecker) (t1 t2 : Nat) (span : Span)
    (h : TypeContext.getTy s.ctx.types t1 = .errorRecovery) :
    TypeChecker.applySatisfiesConstraint fuel t1 t2 span s = s := by
  by_cases heq : TypeContext.getTy s.ctx.types t1 = TypeContext.getTy s.ctx.types t2
  · exact applySatisfies_same fuel s t1 t2 span heq
  · unfold TypeChecker.applySatisfiesConstraint
    rcases h2 : TypeContext.getTy s.ctx.types t2 <;> simp_all

/-- Satisfying with `ErrorRecovery` on the right is a no-op. -/
theorem applySatisfies_er2 (fuel : Nat) (s : TypeChecker) (t1 t2 : Nat) (span : Span)
    (h : TypeContext.getTy s.ctx.types t2 = .errorRecovery) :
    TypeChecker.applySatisfiesConstraint fuel t1 t2 span s = s := by
  by_cases heq : TypeContext.getTy s.ctx.types t1 = TypeContext.getTy s.ctx.types t2
  · exact applySatisfies_same fuel s t1 t2 span heq
  · unfold TypeChecker.applySatisfiesConstraint
    rcases h1 : TypeContext.getTy s.ctx.types t1 <;> simp_all

/-- Satisfies forwards through a left `Ref`. -/
theorem applySatisfies_ref1 (fuel : Nat) (s : TypeChecker) (t1 t2 w : Nat) (span : Span)
    (h1 : TypeContext.getTy s.ctx.types t1 = .ref w)
    (h2 : TypeContext.getTy s.ctx.types t2 ≠ .errorRecovery)
    (hne : TypeContext.getTy s.ctx.types t1 ≠ TypeContext.getTy s.ctx.types t2) :
    TypeChecker.applySatisfiesConstraint (fuel + 1) t1 t2 span s
      = TypeChecker.applySatisfiesConstraint fuel w t2 span s := by
  conv_lhs => unfold TypeChecker.applySatisfiesConstraint
  rcases hg : TypeContext.getTy s.ctx.types t2 <;> simp_all

/-- Satisfies forwards through a right `Ref` once the left side is neither
a `Ref` nor `ErrorRecovery`. -/
theorem applySatisfies_ref2 (fuel : Nat) (s : TypeChecker) (t1 t2 b : Nat) (span : Span)
    (h1 : ∀ u, TypeContext.getTy s.ctx.types t1 ≠ .ref u)
    (h1' : TypeContext.getTy s.ctx.types t1 ≠ .errorRecovery)
    (h2 : TypeContext.getTy s.ctx.types t2 = .ref b) :
    TypeChecker.applySatisfiesConstraint (fuel + 1) t1 t2 span s
      = TypeChecker.applySatisfiesConstraint fuel t1 b span s := by
  conv_lhs => unfold TypeChecker.applySatisfiesConstraint
  rcases hg : TypeContext.getTy s.ctx.types t1 <;> simp_all

/-- Running both solver rules on a left operand that forwards to
`ErrorRecovery` within `n` derefs is a no-op. -/
theorem solve_chain_er1 : ∀ (n fuel : Nat) (s : TypeChecker) (t1 t2 : Nat) (span : Span),
    derefChain s.ctx.types n t1 = some .errorRecovery → n < fuel →
    TypeChecker.applyUnifyConstraint fuel t1 t2 span s = s
    ∧ TypeChecker.applySatisfiesConstraint fuel t1 t2 span s = s := by
  intro n
  induction n with
  | zero =>
    intro fuel s t1 t2 span hc _
    have h1 : TypeContext.getTy s.ctx.types t1 = .errorRecovery := by
      unfold derefChain at hc
      rcases hg : TypeContext.getTy s.ctx.types t1 <;> rw [hg] at hc <;> simp_all
    exact ⟨applyUnify_er1 fuel s t1 t2 span h1, applySatisfies_er1 fuel s t1 t2 span h1⟩
  | succ n ih =>
    intro fuel s t1 t2 span hc hlt
    rcases hg : TypeContext.getTy s.ctx.types t1 with
      _ | _ | _ | _ | w | _ | _ | _ | _ | _ | _ | _
    case ref =>
      rcases fuel with _ | fuel
      · omega
      have hc2 : derefChain s.ctx.types n w = some .errorRecovery := by
        rw [derefChain_ref s.ctx.types n t1 w hg] at hc
        exact hc
      have hrec := ih fuel s w t2 span hc2 (by omega)
      by_cases h2 : TypeContext.getTy s.ctx.types t2 = .errorRecovery
      · exact ⟨applyUnify_er2 (fuel + 1) s t1 t2 span h2,
          applySatisfies_er2 (fuel + 1) s t1 t2 span h2⟩
      by_cases heq : TypeContext.getTy s.ctx.types t1 = TypeContext.getTy s.ctx.types t2
      · exact ⟨applyUnify_same (fuel + 1) s t1 t2 span heq,
          applySatisfies_same (fuel + 1) s t1 t2 span heq⟩
      constructor
      · rw [applyUnify_ref1 fuel s t1 t2 w span hg h2 heq]
        exact hrec.1
      · rw [applySatisfies_ref1 fuel s t1 t2 w span hg h2 heq]
        exact hrec.2
    all_goals
      have h1 : TypeContext.getTy s.ctx.types t1 = .errorRecovery := by
        have hnr := derefChain_nonref s.ctx.types (n + 1) t1 (by intro w; rw [hg]; simp)
        rw [hnr] at hc
        exact Option.some.inj hc
    all_goals
      exact ⟨applyUnify_er1 _ s t1 t2 span h1, applySatisfies_er1 _ s t1 t2 span h1⟩

/-- Running both solver rules with a non-`Ref` left slot and a right
operand that forwards to `ErrorRecovery` within `n` derefs is a no-op. -/
theorem solve_chain_er2_aux : ∀ (n fuel : Nat) (s : TypeChecker) (t1 t2 : Nat) (span : Span),
    (∀ w, TypeContext.getTy s.ctx.types t1 ≠ .ref w) →
    derefChain s.ctx.types n t2 = some .errorRecovery → n < fuel →
    TypeChecker.applyUnifyConstraint fuel t1 t2 span s = s
    ∧ TypeChecker.applySatisfiesConstraint fuel t1 t2 span s = s := by
  intro n
  induction n with
  | zero =>
    intro fuel s t1 t2 span h1 hc _
    have h2 : TypeContext.getTy s.ctx.types t2 = .errorRecovery := by
      unfold derefChain at hc
      rcases hg : TypeContext.getTy s.ctx.types t2 <;> rw [hg] at hc <;> simp_all
    exact ⟨applyUnify_er2 fuel s t1 t2 span h2, applySatisfies_er2 fuel s t1 t2 span h2⟩
  | succ n ih =>
    intro fuel s t1 t2 span h1 hc hlt
    rcases hg : TypeContext.getTy s.ctx.types t2 with
      _ | _ | _ | _ | b | _ | _ | _ | _ | _ | _ | _
    case ref =>
      rcases fuel with _ | fuel
      · omega
      have hc2 : derefChain s.ctx.types n b = some .errorRecovery := by
        rw [derefChain_ref s.ctx.types n t2 b hg] at hc
        exact hc
      have hrec := ih fuel s t1 b span h1 hc2 (by omega)
      by_cases h1er : TypeContext.getTy s.ctx.types t1 = .errorRecovery
      · exact ⟨applyUnify_er1 (fuel + 1) s t1 t2 span h1er,
          applySatisfies_er1 (fuel + 1) s t1 t2 span h1er⟩
      by_cases heq : TypeContext.getTy s.ctx.types t1 = TypeContext.getTy s.ctx.types t2
      · exact ⟨applyUnify_same (fuel + 1) s t1 t2 span heq,
          applySatisfies_same (fuel + 1) s t1 t2 span heq⟩
      constructor
      · rw [applyUnify_ref2 fuel s t1 t2 b span h1 h1er hg heq]
        exact hrec.1
      · rw [applySatisfies_ref2 fuel s t1 t2 b span h1 h1er hg]
        exact hrec.2
    all_goals
      have h2 : TypeContext.getTy s.ctx.types t2 = .errorRecovery := by
        have hnr := derefChain_nonref s.ctx.types (n + 1) t2 (by intro w; rw [hg]; simp)
        rw [hnr] at hc
        exact Option.some.inj hc
    all_goals
      exact ⟨applyUnify_er2 _ s t1 t2 span h2, applySatisfies_er2 _ s t1 t2 span h2⟩

/-- Running both solver rules when the left chain terminates within `m`
derefs and the right chain reaches `ErrorRecovery` within `n` derefs is a
no-op. -/
theorem solve_chain_er2 : ∀ (m n fuel : Nat) (s : TypeChecker) (t1 t2 : Nat) (span : Span),
    (∃ τ, derefChain s.ctx.types m t1 = some τ) →
    derefChain s.ctx.types n t2 = some .errorRecovery → m + n < fuel →
    TypeChecker.applyUnifyConstraint fuel t1 t2 span s = s
    ∧ TypeChecker.applySatisfiesConstraint fuel t1 t2 span s = s := by
  intro m
  induction m with
  | zero =>
    intro n fuel s t1 t2 span hm hc hlt
    obtain ⟨τ, hm⟩ := hm
    have h1 : ∀ w, TypeContext.getTy s.ctx.types t1 ≠ .ref w := by
      intro w hw
      unfold derefChain at hm
      rw [hw] at hm
      exact Option.noConfusion hm
    exact solve_chain_er2_aux n fuel s t1 t2 span h1 hc (by omega)
  | succ m ih =>
    intro n fuel s t1 t2 span hm hc hlt
    obtain ⟨τ, hm⟩ := hm
    rcases hg : TypeContext.getTy s.ctx.types t1 with
      _ | _ | _ | _ | w | _ | _ | _ | _ | _ | _ | _
    case ref =>
      rcases fuel with _ | fuel
      · omega
      have hm2 : derefChain s.ctx.types m w = some τ := by
        rw [derefChain_ref s.ctx.types m t1 w hg] at hm
        exact hm
      have hrec := ih n fuel s w t2 span ⟨τ, hm2⟩ hc (by omega)
      by_cases h2er : TypeContext.getTy s.ctx.types t2 = .errorRecovery
      · exact ⟨applyUnify_er2 (fuel + 1) s t1 t2 span h2er,
          applySatisfies_er2 (fuel + 1) s t1 t2 span h2er⟩
      by_cases heq : TypeContext.getTy s.ctx.types t1 = TypeContext.getTy s.ctx.types t2
      · exact ⟨applyUnify_same (fuel + 1) s t1 t2 span heq,
          applySatisfies_same (fuel + 1) s t1 t2 span heq⟩
      constructor
      · rw [applyUnify_ref1 fuel s t1 t2 w span hg h2er heq]
        exact hrec.1
      · rw [applySatisfies_ref1 fuel s t1 t2 w span hg h2er heq]
        exact hrec.2
    all_goals
      exact solve_chain_er2_aux n fuel s t1 t2 span (by intro u; rw [hg]; simp) hc (by omega)

/-- C5: `ErrorRecovery` is absorbing for the solver: for a `Unify` or
`Satisfies` constraint in which either endpoint's slot is, or forwards
through a terminating `Ref` chain to, `ErrorRecovery`, solving leaves the
checker state completely unchanged — no error is emitted and no slot is
rewritten. (For the right-endpoint case the left chain is additionally
assumed to terminate, which the spec's own ref-chain invariant
guarantees; `fuel` must exceed the chain lengths.) -/
theorem C5_error_recovery_absorbing (s : TypeChecker) (t1 t2 : Nat) (span : Span)
    (n m fuel : Nat)
    (h : (derefChain s.ctx.types n t1 = some .errorRecovery ∧ n < fuel)
       ∨ ((∃ τ, derefChain s.ctx.types m t1 = some τ)
          ∧ derefChain s.ctx.types n t2 = some .errorRecovery ∧ m + n < fuel)) :
    TypeChecker.applyUnifyConstraint fuel t1 t2 span s = s
    ∧ TypeChecker.applySatisfiesConstraint fuel t1 t2 span s = s := by
  rcases h with ⟨hc, hlt⟩ | ⟨hm, hc, hlt⟩
  · exact solve_chain_er1 n fuel s t1 t2 span hc hlt
  · exact solve_chain_er2 m n fuel s t1 t2 span hm hc hlt

theorem C5_error_recovery_absorbing_witness :
    TypeChecker.applyUnifyConstraint 2 4 3 sampleSpan baseChecker = baseChecker
    ∧ TypeChecker.applySatisfiesConstraint 2 4 3 sampleSpan baseChecker = baseChecker :=
  C5_error_recovery_absorbing baseChecker 4 3 sampleSpan 0 0 2
    (Or.inl ⟨by decide, by decide⟩)

/-- C6: type checking an `If` adds `Unify(ty(cond), bool)` at the
condition's span and `Unify(ty(then), ty(else))` at the (typed) else
branch's span, in that order around the branches' own constraints; the
typed expression's `expr_ty` is the then branch's type; and (through the
spec-modelled resolver lowering) a missing else branch is checked as a
`Unit` expression whose type is the unit sentinel. The `bool` endpoint is
the checker's bool sentinel (`TypeContext.default` slot 2), which holds
`Boolean`. -/
theorem C6_if_type_check (fuel : Nat) (sp : Span) (condition thenBranch : RExpr)
    (elseOpt : Option RExpr) (s : TypeChecker) :
    let elseBranch := resolveElseBranch elseOpt sp
    let rc := typeCheckExpr fuel condition s
    let conditionTy := rc.2.exprTy rc.1
    let s2 := rc.2.unify conditionTy rc.2.ctx.boolTy rc.1.span
    let rt := typeCheckExpr fuel thenBranch s2
    let thenTy := rt.2.exprTy rt.1
    let re := typeCheckExpr fuel elseBranch rt.2
    let elseTy := re.2.exprTy re.1
    let s5 := re.2.unify thenTy elseTy re.1.span
    typeCheckExpr (fuel + 1) (.mk (.ifE condition thenBranch elseBranch) sp) s
        = (.mk (.ifE rc.1 rt.1 re.1) sp, s5)
    ∧ s2.ctx.constraints = rc.2.ctx.constraints
        ++ [{ kind := .unify conditionTy rc.2.ctx.boolTy, span := rc.1.span }]
    ∧ s5.ctx.constraints = re.2.ctx.constraints
        ++ [{ kind := .unify thenTy elseTy, span := re.1.span }]
    ∧ (∀ st : TypeChecker, st.exprTy (.mk (.ifE rc.1 rt.1 re.1) sp) = st.exprTy rt.1)
    ∧ (elseOpt = none → fuel ≠ 0 →
        re.1 = .mk .unit sp ∧ re.2 = rt.2 ∧ elseTy = rt.2.ctx.unitTy) := by
  refine ⟨rfl, rfl, rfl, fun st => rfl, ?_⟩
  intro hnone hfuel
  subst hnone
  rcases fuel with _ | g
  · exact absurd rfl hfuel
  · exact ⟨rfl, rfl, rfl⟩

theorem C6_if_type_check_witness :
    (typeCheckExpr 2
        (.mk (.ifE condExpr thenExpr (resolveElseBranch none sampleSpan)) sampleSpan)
        baseChecker).2.ctx.constraints
      = [{ kind := .unify 5 2, span := sampleSpan },
         { kind := .unify 6 0, span := sampleSpan }]
    ∧ (typeCheckExpr 1 (resolveElseBranch none sampleSpan)
          (typeCheckExpr 1 thenExpr
            ((typeCheckExpr 1 condExpr baseChecker).2.unify
              ((typeCheckExpr 1 condExpr baseChecker).2.exprTy
                (typeCheckExpr 1 condExpr baseChecker).1)
              (typeCheckExpr 1 condExpr baseChecker).2.ctx.boolTy
              (typeCheckExpr 1 condExpr baseChecker).1.span)).2).1
      = .mk .unit sampleSpan := by
  have h := C6_if_type_check 1 sampleSpan condExpr thenExpr none baseChecker
  have h5 := h.2.2.2.2 rfl (by decide)
  refine ⟨?_, h5.1⟩
  rw [h.1]
  decide

/-- Type checking a literal expression: fresh slot holding the literal
type, no other state change. -/
theorem typeCheckExpr_literal (fuel : Nat) (l : Literal) (sp : Span) (st : TypeChecker) :
    typeCheckExpr (fuel + 1) (.mk (.literal l) sp) st
      = (.mk (.literal l st.ctx.types.length) sp,
         { st with ctx := { st.ctx with types := st.ctx.types ++ [.lit l] } }) := rfl

/-- The argument loop of `FunctionCall::type_check` on literal arguments,
in closed form: each literal gets a fresh slot holding its literal type,
and one `Satisfies(paramType, slot)` constraint is pushed per argument at
the argument's span; no other state changes. -/
theorem foldCallArgs_lits (fuel : Nat) :
    ∀ (lits : List (Literal × Span)) (params : List (Identifier × Nat))
      (acc : List (Identifier × TypedExpr × Nat)) (st : TypeChecker),
    ((lits.map fun l => RExpr.mk (.literal l.1) l.2).zip params).foldl
        (callArgsStep (typeCheckExpr (fuel + 1))) (acc, st)
      = (acc ++ litCallArgs st.ctx.types.length lits params,
         { st with ctx := { st.ctx with
             types := st.ctx.types ++ ((lits.take params.length).map fun l => PetrType.lit l.1),
             constraints := st.ctx.constraints ++ litCallCons st.ctx.types.length lits params } }) := by
  intro lits
  induction lits with
  | nil =>
    intro params acc st
    simp [litCallArgs, litCallCons]
  | cons l ls ih =>
    intro params acc st
    cases params with
    | nil =>
      simp [litCallArgs, litCallCons]
    | cons p ps =>
      have hstep : callArgsStep (typeCheckExpr (fuel + 1)) (acc, st)
          (.mk (.literal l.1) l.2, p)
          = (acc ++ [(p.1, .mk (.literal l.1 st.ctx.types.length) l.2, st.ctx.types.length)],
             { st with ctx := { st.ctx with
                 types := st.ctx.types ++ [.lit l.1],
                 constraints := st.ctx.constraints
                   ++ [{ kind := .satisfies p.2 st.ctx.types.length, span := l.2 }] } }) := by
        simp [callArgsStep, typeCheckExpr_literal, TypeChecker.exprTy, TypeChecker.satisfies,
          TypeChecker.convertLiteralToType, TypeChecker.insertType, TypedExpr.span]
      simp only [List.map_cons, List.zip_cons_cons, List.foldl_cons, hstep, ih,
        litCallArgs, litCallCons, List.take_succ_cons, List.length_append, List.length_cons,
        List.map_cons]
      simp [List.append_assoc]

/-- Arena lookup just past an append boundary. -/
theorem getTy_append_at (types : List PetrType) (x : PetrType) (rest : List PetrType) :
    TypeContext.getTy (types ++ x :: rest) types.length = x := by
  have h : (types ++ x :: rest)[types.length]? = some x := by
    rw [List.getElem?_append_right (Nat.le_refl _)]
    simp
  simp [TypeContext.getTy, List.getD_eq_getElem?_getD, h]

/-- Looking the literal-argument slots back up in the grown arena returns
exactly the literal types (the concrete argument type vector). -/
theorem litCallArgs_lookup :
    ∀ (lits : List (Literal × Span)) (params : List (Identifier × Nat)) (types : List PetrType),
      lits.length = params.length →
      (litCallArgs types.length lits params).map
          (fun a => TypeContext.getTy (types ++ lits.map fun l => PetrType.lit l.1) a.2.2)
        = lits.map fun l => PetrType.lit l.1 := by
  intro lits
  induction lits with
  | nil =>
    intro params types _
    simp [litCallArgs]
  | cons l ls ih =>
    intro params types hlen
    cases params with
    | nil => simp at hlen
    | cons p ps =>
      have hlen2 : ls.length = ps.length := by simpa using hlen
      have hmain := ih ps (types ++ [PetrType.lit l.1]) hlen2
      simp only [litCallArgs, List.map_cons]
      congr 1
      · exact getTy_append_at types (PetrType.lit l.1) (ls.map fun l => PetrType.lit l.1)
      · have harr : types ++ PetrType.lit l.1 :: (ls.map fun l => PetrType.lit l.1)
            = (types ++ [PetrType.lit l.1]) ++ (ls.map fun l => PetrType.lit l.1) := by
          simp
        have hlen3 : types.length + 1 = (types ++ [PetrType.lit l.1]).length := by simp
        rw [harr, hlen3]
        exact hmain

/-- The monomorphization parameter loop in closed form: fresh slots holding
the concrete types, names preserved. -/
theorem foldMonoParams :
    ∀ (params : List (Identifier × Nat)) (tys : List PetrType)
      (acc : List (Identifier × Nat)) (st : TypeChecker),
    (params.zip tys).foldl monoParamsStep (acc, st)
      = (acc ++ monoParamSlots st.ctx.types.length params tys,
         { st with ctx := { st.ctx with types := st.ctx.types ++ tys.take params.length } }) := by
  intro params
  induction params with
  | nil =>
    intro tys acc st
    simp [monoParamSlots]
  | cons p ps ih =>
    intro tys acc st
    cases tys with
    | nil => simp [monoParamSlots]
    | cons t ts =>
      have hstep : monoParamsStep (acc, st) (p, t)
          = (acc ++ [(p.1, st.ctx.types.length)],
             { st with ctx := { st.ctx with types := st.ctx.types ++ [t] } }) := by
        simp [monoParamsStep, TypeChecker.insertType]
      simp only [List.zip_cons_cons, List.foldl_cons, hstep, ih, monoParamSlots,
        List.take_succ_cons, List.length_append, List.length_cons]
      simp [List.append_assoc]

/-- `get_function` on a cached (already type checked) function returns the
cache entry without touching the state. -/
theorem getFunction_cached (fuel : Nat) (s : TypeChecker) (id : Nat) (decl : Function)
    (h : assocLookup s.typedFunctions id = some decl) :
    getFunction (fuel + 1) id s = (decl, s) := by
  conv_lhs => unfold getFunction
  rw [h]

/-- Full closed form of `FunctionCall::type_check` for a cached callee,
literal arguments and matching arity: after checking the arguments the
concrete argument type vector is the list of literal types; if the
monomorphization table already holds the `(function, concrete types)` key
the call returns a typed `FunctionCall` with the declared return type and
the state after argument checking, otherwise it pushes
`Satisfies(declaredReturn, ty(body))` at the body's span, overwrites the
cloned parameters with fresh slots holding the concrete types, rewrites
variable references in the cloned body via
`replace_var_reference_types`, and inserts the specialization under the
key. -/
theorem typeCheckFnCall_lits (fuel : Nat) (s : TypeChecker) (call : RFunctionCall)
    (decl : Function) (lits : List (Literal × Span))
    (hcache : assocLookup s.typedFunctions call.function = some decl)
    (hargs : call.args = lits.map fun l => RExpr.mk (.literal l.1) l.2)
    (hlen : call.args.length = decl.params.length) :
    let concrete := lits.map fun l => PetrType.lit l.1
    let args := litCallArgs s.ctx.types.length lits decl.params
    let s1 : TypeChecker := { s with ctx := { s.ctx with
        types := s.ctx.types ++ concrete,
        constraints := s.ctx.constraints ++ litCallCons s.ctx.types.length lits decl.params } }
    let signature : Nat × List PetrType := (call.function, concrete)
    let s2 := s1.satisfies decl.returnTy (s1.exprTy decl.body) decl.body.span
    let newParams := monoParamSlots s2.ctx.types.length decl.params concrete
    let mono : Function := Function.mk decl.name newParams
      (.mk (replaceVarReferenceTypes decl.body.kind newParams 0).1 decl.body.span) decl.returnTy
    typeCheckFunctionCall (fuel + 2) call s
      = if (assocLookup s.monomorphizedFunctions signature).isSome then
          (.functionCall call.function (args.map fun a => (a.1, a.2.1)) decl.returnTy, s1)
        else
          (.functionCall call.function (args.map fun a => (a.1, a.2.1)) decl.returnTy,
           { s2 with
             ctx := { s2.ctx with types := s2.ctx.types ++ concrete },
             monomorphizedFunctions := assocInsert s2.monomorphizedFunctions signature mono }) := by
  have hlits : lits.length = decl.params.length := by
    rw [hargs] at hlen
    simpa using hlen
  have htake : lits.take decl.params.length = lits := by
    rw [← hlits]
    exact List.take_length lits
  have htakeC : (lits.map fun l => PetrType.lit l.1).take decl.params.length
      = lits.map fun l => PetrType.lit l.1 := by
    rw [← hlits]
    simp
  intro concrete args s1 signature s2 newParams mono
  conv_lhs => unfold typeCheckFunctionCall
  rw [getFunction_cached fuel s call.function decl hcache]
  simp only [hargs, List.length_map, hlits, ne_eq, not_true_eq_false, if_false,
    foldCallArgs_lits, List.nil_append, htake, htakeC, TypeChecker.lookUpVariable,
    TypeChecker.satisfyExprReturn, foldMonoParams]
  rw [litCallArgs_lookup lits decl.params s.ctx.types hlits]
  simp only [htakeC]

/-- C1: for a call to a (cached) callee, an argument/parameter count
mismatch records exactly one `ArgumentCountMismatch` error carrying
`expected` = the parameter count, `got` = the argument count and the
callee's interned name, spanned at the call's span, and the produced
expression is `ErrorRecovery` at the call span — the state is otherwise
untouched; with matching counts (literal arguments) the call emits no
error at all, so in particular no `ArgumentCountMismatch`. -/
theorem C1_argument_count_mismatch (fuel : Nat) (s : TypeChecker) (call : RFunctionCall)
    (decl : Function)
    (hcache : assocLookup s.typedFunctions call.function = some decl) :
    (call.args.length ≠ decl.params.length →
      typeCheckFunctionCall (fuel + 2) call s
        = (.errorRecovery call.span,
           s.pushError (SpannedItem.mk
             (TypeConstraintError.argumentCountMismatch decl.params.length call.args.length
               (s.resolved.interner decl.name.id)) call.span)))
    ∧ (∀ lits : List (Literal × Span),
        call.args = lits.map (fun l => RExpr.mk (.literal l.1) l.2) →
        call.args.length = decl.params.length →
        (typeCheckFunctionCall (fuel + 2) call s).2.errors = s.errors) := by
  constructor
  · intro hne
    conv_lhs => unfold typeCheckFunctionCall
    rw [getFunction_cached fuel s call.function decl hcache]
    simp only [if_pos hne]
    rfl
  · intro lits hargs hlen
    rw [typeCheckFnCall_lits fuel s call decl lits hcache hargs hlen]
    split <;> rfl

theorem C1_argument_count_mismatch_witness :
    typeCheckFunctionCall 2 callOneArg addChecker
      = (.errorRecovery sampleSpan2,
         { addChecker with errors :=
             [{ item := .argumentCountMismatch 2 1 "add", span := sampleSpan2 }] })
    ∧ (typeCheckFunctionCall 2 callTwoArgs addChecker).2.errors = [] := by
  have h := C1_argument_count_mismatch 0 addChecker callOneArg addDecl rfl
  have h2 := C1_argument_count_mismatch 0 addChecker callTwoArgs addDecl rfl
  constructor
  · rw [h.1 (by decide)]
    rfl
  · exact h2.2 [(.integer 5, sampleSpan2), (.integer 6, sampleSpan2)] rfl (by decide)

/-- Keys of `assocInsert` come from the old keys or are the inserted key. -/
theorem assocInsert_keys_mem {κ α : Type} [DecidableEq κ] :
    ∀ (l : List (κ × α)) (k : κ) (v : α) (x : κ),
      x ∈ (assocInsert l k v).map Prod.fst → x ∈ l.map Prod.fst ∨ x = k := by
  intro l
  induction l with
  | nil =>
    intro k v x hx
    simp [assocInsert] at hx
    exact Or.inr hx
  | cons e rest ih =>
    intro k v x hx
    by_cases he : e.1 = k
    · simp [assocInsert, he] at hx
      rcases hx with hx | hx
      · exact Or.inr hx
      · exact Or.inl (by simp [hx])
    · rcases e with ⟨k', v'⟩
      simp only [assocInsert, if_neg he, List.map_cons, List.mem_cons] at hx
      rcases hx with hx | hx
      · exact Or.inl (by simp [hx])
      · rcases ih k v x hx with h | h
        · exact Or.inl (by simp; exact Or.inr (by simpa using h))
        · exact Or.inr h

/-- `assocInsert` preserves key uniqueness (the `BTreeMap` invariant): the
key list stays duplicate-free. -/
theorem assocInsert_nodup {κ α : Type} [DecidableEq κ] :
    ∀ (l : List (κ × α)) (k : κ) (v : α),
      (l.map Prod.fst).Nodup → ((assocInsert l k v).map Prod.fst).Nodup := by
  intro l
  induction l with
  | nil =>
    intro k v _
    simp [assocInsert]
  | cons e rest ih =>
    intro k v hnd
    rcases e with ⟨k', v'⟩
    simp only [List.map_cons, List.nodup_cons] at hnd
    by_cases he : k' = k
    · subst he
      have harr : assocInsert ((k', v') :: rest) k' v = (k', v) :: rest := by
        simp [assocInsert]
      rw [harr]
      simp only [List.map_cons, List.nodup_cons]
      exact hnd
    · simp only [assocInsert, if_neg he, List.map_cons, List.nodup_cons]
      constructor
      · intro hmem
        rcases assocInsert_keys_mem rest k v k' hmem with h | h
        · exact hnd.1 h
        · exact he h
      · exact ih k v hnd.2

/-- C3: the monomorphization table maps each key to at most one
specialization — modelled as a duplicate-free key list, which
`FunctionCall::type_check` preserves — and a call (cached callee, literal
arguments, matching arity) whose `(function, concrete argument types)` key
is already present leaves the table untouched and returns a typed
`FunctionCall` whose type is the callee's declared return type. -/
theorem C3_monomorphization_table (fuel : Nat) (s : TypeChecker) (call : RFunctionCall)
    (decl : Function) (lits : List (Literal × Span))
    (hcache : assocLookup s.typedFunctions call.function = some decl)
    (hargs : call.args = lits.map fun l => RExpr.mk (.literal l.1) l.2)
    (hlen : call.args.length = decl.params.length) :
    ((s.monomorphizedFunctions.map Prod.fst).Nodup →
      (((typeCheckFunctionCall (fuel + 2) call s).2.monomorphizedFunctions.map Prod.fst)).Nodup)
    ∧ ((assocLookup s.monomorphizedFunctions
          (call.function, lits.map fun l => PetrType.lit l.1)).isSome →
        (typeCheckFunctionCall (fuel + 2) call s).2.monomorphizedFunctions
            = s.monomorphizedFunctions
        ∧ (typeCheckFunctionCall (fuel + 2) call s).1
            = .functionCall call.function
                ((litCallArgs s.ctx.types.length lits decl.params).map fun a => (a.1, a.2.1))
                decl.returnTy) := by
  have hmain := typeCheckFnCall_lits fuel s call decl lits hcache hargs hlen
  constructor
  · intro hnd
    rw [hmain]
    split
    · exact hnd
    · exact assocInsert_nodup _ _ _ hnd
  · intro hkey
    rw [hmain]
    rw [if_pos hkey]
    exact ⟨rfl, rfl⟩

/-- C4 counterexample: calling `bindDecl` with the literal `1` inserts a
specialization whose parameter has been overwritten with the fresh slot 6,
but whose body is byte-for-byte the original: the variable reference to the
parameter nested under the let-binding still carries slot 7, not the new
parameter slot 6, because `replace_var_reference_types` does not walk
`ExprWithBindings` (its `_ => ()` arm). The claim's parenthetical —
replacement "including references nested under let-bindings" — is
therefore false on this input. -/
theorem C4_counterexample_let_binding :
    assocLookup (typeCheckFunctionCall 2 bindCall bindChecker).2.monomorphizedFunctions
        (0, [PetrType.lit (.integer 1)])
      = some (Function.mk { id := 10, span := sampleSpan }
          [({ id := 1, span := sampleSpan }, 6)]
          (.mk (.exprWithBindings
              [({ id := 3, span := sampleSpan }, .mk (.literal (.integer 7) 8) sampleSpan)]
              (.mk (.var 7 { id := 1, span := sampleSpan }) sampleSpan)) sampleSpan)
          9)
    ∧ (7 : Nat) ≠ 6 := by
  exact ⟨rfl, by decide⟩

/-- C4 as amended: on a monomorphization-table miss the checker pushes
`Satisfies(declaredReturn, ty(body))` at the body's span, clones the
declaration, overwrites each parameter with a fresh slot holding the
corresponding concrete argument type, rewrites the cloned body with
`replace_var_reference_types`, and inserts the specialization under the
`(function, concrete argument types)` key — but the rewrite only replaces
variable references at the top of the body or nested under function-call
and intrinsic arguments; expressions under let-bindings, list elements, if
branches and type-constructor arguments are returned unchanged by the
source's `_ => ()` arm. -/
theorem C4_specialization_amended (fuel : Nat) (s : TypeChecker) (call : RFunctionCall)
    (decl : Function) (lits : List (Literal × Span))
    (hcache : assocLookup s.typedFunctions call.function = some decl)
    (hargs : call.args = lits.map fun l => RExpr.mk (.literal l.1) l.2)
    (hlen : call.args.length = decl.params.length)
    (hmiss : (assocLookup s.monomorphizedFunctions
        (call.function, lits.map fun l => PetrType.lit l.1)).isSome = false) :
    let concrete := lits.map fun l => PetrType.lit l.1
    let args := litCallArgs s.ctx.types.length lits decl.params
    let s1 : TypeChecker := { s with ctx := { s.ctx with
        types := s.ctx.types ++ concrete,
        constraints := s.ctx.constraints ++ litCallCons s.ctx.types.length lits decl.params } }
    let signature : Nat × List PetrType := (call.function, concrete)
    let s2 := s1.satisfies decl.returnTy (s1.exprTy decl.body) decl.body.span
    let newParams := monoParamSlots s2.ctx.types.length decl.params concrete
    let mono : Function := Function.mk decl.name newParams
      (.mk (replaceVarReferenceTypes decl.body.kind newParams 0).1 decl.body.span) decl.returnTy
    (typeCheckFunctionCall (fuel + 2) call s
        = (.functionCall call.function (args.map fun a => (a.1, a.2.1)) decl.returnTy,
           { s2 with
             ctx := { s2.ctx with types := s2.ctx.types ++ concrete },
             monomorphizedFunctions := assocInsert s2.monomorphizedFunctions signature mono })
      ∧ s2.ctx.constraints = s1.ctx.constraints
          ++ [{ kind := .satisfies decl.returnTy (s1.exprTy decl.body), span := decl.body.span }])
    ∧ (∀ (bs : List (Identifier × TypedExpr)) (e : TypedExpr)
          (ps : List (Identifier × Nat)) (n : Nat),
        replaceVarReferenceTypes (.exprWithBindings bs e) ps n = (.exprWithBindings bs e, n))
    ∧ (∀ (es : List TypedExpr) (ty : Nat) (ps : List (Identifier × Nat)) (n : Nat),
        replaceVarReferenceTypes (.list es ty) ps n = (.list es ty, n))
    ∧ (∀ (c t e : TypedExpr) (ps : List (Identifier × Nat)) (n : Nat),
        replaceVarReferenceTypes (.ifE c t e) ps n = (.ifE c t e, n))
    ∧ (∀ (ty : Nat) (cargs : List TypedExpr) (ps : List (Identifier × Nat)) (n : Nat),
        replaceVarReferenceTypes (.typeConstructor ty cargs) ps n = (.typeConstructor ty cargs, n))
    ∧ (∀ (ty : Nat) (name : Identifier) (ps : List (Identifier × Nat)) (n : Nat)
          (p : Identifier × Nat),
        ps.find? (fun q => q.1.id == name.id) = some p →
        replaceVarReferenceTypes (.var ty name) ps n = (.var p.2 name, n + 1)) := by
  refine ⟨⟨?_, rfl⟩, ?_, ?_, ?_, ?_, ?_⟩
  · rw [typeCheckFnCall_lits fuel s call decl lits hcache hargs hlen]
    rw [if_neg (by simp [hmiss])]
  · intro bs e ps n
    simp [replaceVarReferenceTypes]
  · intro es ty ps n
    simp [replaceVarReferenceTypes]
  · intro c t e ps n
    simp [replaceVarReferenceTypes]
  · intro ty cargs ps n
    simp [replaceVarReferenceTypes]
  · intro ty name ps n p hfind
    simp [replaceVarReferenceTypes, hfind]

theorem C4_specialization_amended_witness :
    (typeCheckFunctionCall 2 bindCall bindChecker).2.ctx.constraints
      = [{ kind := .satisfies 5 5, span := sampleSpan2 },
         { kind := .satisfies 9 7, span := sampleSpan }]
    ∧ replaceVarReferenceTypes (.var 7 { id := 1, span := sampleSpan })
        [({ id := 1, span := sampleSpan }, 6)] 0
      = (.var 6 { id := 1, span := sampleSpan }, 1) := by
  have h := C4_specialization_amended 0 bindChecker bindCall bindDecl
    [(.integer 1, sampleSpan2)] rfl rfl (by decide) rfl
  constructor
  · rw [h.1.1]
    rfl
  · exact h.2.2.2.2.2 7 { id := 1, span := sampleSpan }
      [({ id := 1, span := sampleSpan }, 6)] 0 ({ id := 1, span := sampleSpan }, 6) rfl

theorem C3_monomorphization_table_witness :
    (typeCheckFunctionCall 2 callTwoArgs monoChecker).2.monomorphizedFunctions
      = monoChecker.monomorphizedFunctions
    ∧ ((typeCheckFunctionCall 2 callTwoArgs monoChecker).2.monomorphizedFunctions.map
        Prod.fst).Nodup := by
  have h := C3_monomorphization_table 0 monoChecker callTwoArgs addDecl
    [(.integer 5, sampleSpan2), (.integer 6, sampleSpan2)] rfl rfl (by decide)
  have hp := h.2 (by decide)
  refine ⟨hp.1, ?_⟩
  rw [hp.1]
  exact h.1 (by decide)

end Petr
